import Mathlib

/-!
# Verification of the Crawl_Server STIX bundle builder and enrichment pass

A shallow embedding of the STIX graph assembly engine of the repository:
`src/stage4/04_build_stix_bundle.py` (Report Assembler) and
`src/stage4/05_enrich_authors.py` (Enrichment Pass), together with proofs
settling the frozen claims about them.

Modelling conventions:
* Python strings are Lean `String`s; the string manipulation helpers
  (`str.strip`, `str.lower`, `str.splitlines`, the few fixed regular
  expressions the code uses) are re-implemented character by character
  on `List Char`, each next to a comment naming the Python expression
  it embeds.
* `uuid.uuid4()` is modelled by a fresh-id generator over a counter that
  is threaded through every function that allocates an id
  (`mkId t n`); distinct draws give distinct ids, which is the only
  property of uuid4 the code relies on.
* JSON records are typed structures with optional fields; a field whose
  value can be a non-numeric string where the code calls `int(...)` is
  given the type `Option PyConf` so that the `ValueError` the call can
  raise is representable (`Except String`).
* Timestamps (`now_utc_iso`) are passed in as an opaque string.
* File system access of the enrichment pass (`Path.read_text`) is a
  parameter `files : String → Option String`.
-/

set_option autoImplicit false
set_option linter.unusedVariables false

namespace CrawlServer

/-! ## Python-style string primitives -/

/-- Characters stripped by Python `str.strip()` (ASCII whitespace). -/
def pyIsSpace (c : Char) : Bool :=
  c = ' ' || c = '\t' || c = '\n' || c = '\r' || c = '\x0b' || c = '\x0c'

def stripData (l : List Char) : List Char :=
  ((l.dropWhile pyIsSpace).reverse.dropWhile pyIsSpace).reverse

/-- Python `str.strip()`. -/
def pyStrip (s : String) : String := String.mk (stripData s.data)

/-- Python `str.lower()` (the pipeline only feeds it ASCII-ish text). -/
def pyLower (s : String) : String := String.mk (s.data.map Char.toLower)

/-- `safe_str` of both stage-4 files, for a value that is a string or absent:
`str(v).strip() if v is not None else ""`. -/
def safeStrO : Option String → String
  | none => ""
  | some s => pyStrip s

/-- One pass of `re.sub(r"\s+", " ", s)`: every maximal whitespace run
becomes a single space.  `prevSpace` records whether we are inside a run. -/
def collapseWsAux : Bool → List Char → List Char
  | _, [] => []
  | prevSpace, c :: rest =>
    if pyIsSpace c then
      if prevSpace then collapseWsAux true rest
      else ' ' :: collapseWsAux true rest
    else c :: collapseWsAux false rest

def collapseWsData (l : List Char) : List Char := collapseWsAux false l

/-- The punctuation class of `normalize_author_key`:
`[.,;:()\"'`’“”\-_/\\]`. -/
def isAuthorPunct (c : Char) : Bool :=
  c = '.' || c = ',' || c = ';' || c = ':' || c = '(' || c = ')' ||
  c = '"' || c = '\'' || c = '`' || c = '’' || c = '“' || c = '”' ||
  c = '-' || c = '_' || c = '/' || c = '\\'

/-- `normalize_author_key` (defined identically in 04 and 05): lower-case,
collapse whitespace, delete punctuation, collapse whitespace again. -/
def normalize_author_key (name : String) : String :=
  let s1 := (pyLower (pyStrip name)).data
  let s2 := stripData (collapseWsData s1)
  let s3 := s2.filter (fun c => !(isAuthorPunct c))
  String.mk (stripData (collapseWsData s3))

/-- Python `s.split(sep)` for a one-character separator (keeps empties). -/
def splitOnCharAux (sep : Char) : List Char → List Char → List (List Char)
  | acc, [] => [acc.reverse]
  | acc, c :: rest =>
    if c = sep then acc.reverse :: splitOnCharAux sep [] rest
    else splitOnCharAux sep (c :: acc) rest

def splitOnChar (sep : Char) (l : List Char) : List (List Char) :=
  splitOnCharAux sep [] l

/-- Line-break characters recognised by Python `str.splitlines`. -/
def isLineBreak (c : Char) : Bool :=
  c = '\n' || c = '\r' || c = '\x0b' || c = '\x0c' || c = '\x1c' ||
  c = '\x1d' || c = '\x1e' || c = '\x85' || c = ' ' || c = ' '

def splitlinesAux : List Char → List Char → List (List Char)
  | acc, [] => [acc.reverse]
  | acc, '\r' :: '\n' :: rest => acc.reverse :: splitlinesAux [] rest
  | acc, c :: rest =>
    if isLineBreak c then acc.reverse :: splitlinesAux [] rest
    else splitlinesAux (c :: acc) rest

/-- Python `str.splitlines()`: a terminator at the very end does not open a
final empty line. -/
def pySplitlinesData (l : List Char) : List (List Char) :=
  let r := splitlinesAux [] l
  if r.getLast? = some [] then r.dropLast else r

def pySplitlines (s : String) : List String :=
  (pySplitlinesData s.data).map String.mk

/-- `"\n".join(lines)`. -/
def joinLines (ls : List String) : String := String.intercalate "\n" ls

/-- `p` is a prefix of `l`. -/
def startsWithData : List Char → List Char → Bool
  | [], _ => true
  | _ :: _, [] => false
  | p :: ps, c :: cs => p = c && startsWithData ps cs

/-- Python `s.lower().startswith(p)` for an already lower-case `p`. -/
def lowerStartsWith (p s : String) : Bool :=
  startsWithData p.data (pyLower s).data

/-- Python `s.replace(a, b)` for one-character `a`, `b`. -/
def replaceChar (a b : Char) (s : String) : String :=
  String.mk (s.data.map (fun c => if c = a then b else c))

/-- Python slicing `s[:n]` (by code points). -/
def pyTake (n : Nat) (s : String) : String := String.mk (s.data.take n)

/-! ## Indicator value validation (04, lines 39–77) -/

def isDigitChar (c : Char) : Bool := '0' ≤ c && c ≤ '9'

def digitsVal (l : List Char) : Nat :=
  l.foldl (fun n c => n * 10 + (c.toNat - '0'.toNat)) 0

/-- One dotted-quad octet as accepted by `ipaddress.IPv4Address`:
1–3 ASCII digits, no leading zero, value ≤ 255. -/
def isValidOctet (l : List Char) : Bool :=
  decide (1 ≤ l.length) && decide (l.length ≤ 3) && l.all isDigitChar &&
  (decide (l.length = 1) || !(l.headD '0' = '0')) &&
  decide (digitsVal l ≤ 255)

/-- `ipaddress.IPv4Address` parsing of a string: exactly 4 valid octets. -/
def isIPv4Data (l : List Char) : Bool :=
  let ps := splitOnChar '.' l
  decide (ps.length = 4) && ps.all isValidOctet

def isIPv4 (s : String) : Bool := isIPv4Data s.data

def isHexDigitC (c : Char) : Bool :=
  isDigitChar c || ('a' ≤ c && c ≤ 'f') || ('A' ≤ c && c ≤ 'F')

/-- An IPv6 hextet: 1–4 hex digits. -/
def isHextet (l : List Char) : Bool :=
  decide (1 ≤ l.length) && decide (l.length ≤ 4) && l.all isHexDigitC

/-- Number of empty groups in interior positions (the CPython scan
`for i in range(1, len(parts) - 1)`). -/
def countEmptyInterior (parts : List (List Char)) : Nat :=
  ((List.range parts.length).filter
    (fun i => decide (0 < i) && decide (i + 1 < parts.length) &&
      (parts.getD i [' ']).isEmpty)).length

def firstEmptyInterior (parts : List (List Char)) : Option Nat :=
  (List.range parts.length).find?
    (fun i => decide (0 < i) && decide (i + 1 < parts.length) &&
      (parts.getD i [' ']).isEmpty)

/-- The core of `ipaddress.IPv6Address._ip_int_from_string` after the
embedded-IPv4 tail has been replaced by two valid hextets: the `::`
bookkeeping of CPython, reproduced check for check. -/
def isIPv6PartsCore (parts : List (List Char)) : Bool :=
  let n := parts.length
  if 2 ≤ countEmptyInterior parts then false
  else
    match firstEmptyInterior parts with
    | some k =>
      let headEmpty := (parts.headD [' ']).isEmpty
      let tailEmpty := (parts.getLastD [' ']).isEmpty
      if headEmpty && !(k = 1) then false
      else if tailEmpty && !(k + 2 = n) then false
      else
        let hi := if headEmpty then k - 1 else k
        let lo0 := n - k - 1
        let lo := if tailEmpty then lo0 - 1 else lo0
        if 8 ≤ hi + lo then false
        else (parts.take hi).all isHextet && (parts.reverse.take lo).all isHextet
    | none =>
      decide (n = 8) && parts.all isHextet

/-- `ipaddress.IPv6Address` parsing of the address part (no scope id):
split on `:`, at least 3 groups, optional embedded IPv4 tail, at most
9 groups after expanding the tail, then the `::` rules. -/
def isIPv6Data (l : List Char) : Bool :=
  let parts := splitOnChar ':' l
  if parts.length < 3 then false
  else
    match parts.getLast? with
    | none => false
    | some last =>
      if last.contains '.' then
        if isIPv4Data last then
          let parts2 := parts.dropLast ++ [['0'], ['0']]
          if 9 < parts2.length then false else isIPv6PartsCore parts2
        else false
      else
        if 9 < parts.length then false else isIPv6PartsCore parts

def splitOnFirstChar (sep : Char) : List Char → (List Char × Option (List Char))
  | [] => ([], none)
  | c :: rest =>
    if c = sep then ([], some rest)
    else
      let p := splitOnFirstChar sep rest
      (c :: p.1, p.2)

/-- `ipaddress.IPv6Address` including the `%scope` split: the scope id must
be non-empty and contain no further `%`. -/
def isIPv6 (s : String) : Bool :=
  match splitOnFirstChar '%' s.data with
  | (addr, none) => isIPv6Data addr
  | (addr, some scope) =>
    !scope.isEmpty && !scope.contains '%' && isIPv6Data addr

/-- `is_ip` (04, lines 46–54): `ipaddress.ip_address(value)` succeeds. -/
def is_ip (value : String) : Bool := isIPv4 value || isIPv6 value

def containsDoubleDot : List Char → Bool
  | [] => false
  | [_] => false
  | a :: b :: rest => (a = '.' && b = '.') || containsDoubleDot (b :: rest)

/-- `is_domain` (04, lines 57–77). -/
def is_domain (value : String) : Bool :=
  let v := (pyLower (pyStrip value)).data
  if v.isEmpty || decide (253 < v.length) then false
  else if !(v.contains '.') then false
  else if v.headD ' ' = '.' || v.headD ' ' = '-' ||
          v.getLastD ' ' = '.' || v.getLastD ' ' = '-' then false
  else if containsDoubleDot v then false
  else v.all (fun c => ('a' ≤ c && c ≤ 'z') || isDigitChar c || c = '.' || c = '-')

/-- `sha256_like` (04, lines 39–40): `re.fullmatch(r"[0-9a-fA-F]{64}", s)`. -/
def sha256_like (s : String) : Bool :=
  decide (s.data.length = 64) && s.data.all isHexDigitC

/-- The lower-cased hash value matches one of the three recognised hex
lengths (04, lines 111–120). -/
def hashKind (l : List Char) : Option String :=
  if l.all (fun c => isDigitChar c || ('a' ≤ c && c ≤ 'f')) then
    if l.length = 32 then some "MD5"
    else if l.length = 40 then some "SHA1"
    else if l.length = 64 then some "SHA256"
    else none
  else none

/-! ## Author splitting (04 `parse_authors`, 05 `split_authors_from_byline`) -/

/-- Order-preserving exact-string deduplication (spec-side companion of
the `seen`-set loops below). -/
def dedupKeepAux (seen : List String) : List String → List String
  | [] => []
  | s :: rest =>
    if s ∈ seen then dedupKeepAux seen rest
    else s :: dedupKeepAux (s :: seen) rest

def dedupKeep (l : List String) : List String := dedupKeepAux [] l

/-- `p.lower().startswith("by ")` then `p[3:].strip()` (05, lines 69–70). -/
def stripLeadingBy (p : String) : String :=
  if lowerStartsWith "by " p then pyStrip (String.mk (p.data.drop 3)) else p

/-- The accumulation loop shared by the branches of `parse_authors`
(04, lines 267–277 and 288–297): skip empties, skip seen, keep order. -/
def dedupNonempty (seen : List String) : List String → List String
  | [] => []
  | p :: rest =>
    if p = "" then dedupNonempty seen rest
    else if p ∈ seen then dedupNonempty seen rest
    else p :: dedupNonempty (p :: seen) rest

/-- The accumulation loop of `split_authors_from_byline` (05, lines
67–77): drop a leading `by `, then skip empties and seen entries. -/
def dedupByline (seen : List String) : List String → List String
  | [] => []
  | p0 :: rest =>
    let p := stripLeadingBy p0
    if p = "" then dedupByline seen rest
    else if p ∈ seen then dedupByline seen rest
    else p :: dedupByline (p :: seen) rest

/-- A JSON author field: absent, a string, or a list of strings. -/
inductive PyAuthor
  | absent
  | str (s : String)
  | list (xs : List String)
  deriving DecidableEq

/-- Python truthiness of an author field (`x or y` chains). -/
def PyAuthor.truthy : PyAuthor → Bool
  | .absent => false
  | .str s => !(s = "")
  | .list xs => !xs.isEmpty

/-- One attempt of the regex `\s+and\s+` at the start of `l`
(case-insensitive): at least one whitespace char, the word `and`, at
least one whitespace char; returns the remainder after the greedy match. -/
def matchWsAndWs (l : List Char) : Option (List Char) :=
  if (l.takeWhile pyIsSpace).isEmpty then none
  else
    match l.drop (l.takeWhile pyIsSpace).length with
    | a :: n :: d :: r2 =>
      if a.toLower = 'a' && n.toLower = 'n' && d.toLower = 'd' then
        if (r2.takeWhile pyIsSpace).isEmpty then none
        else some (r2.drop (r2.takeWhile pyIsSpace).length)
      else none
    | _ => none

/-- `re.sub(r"\s+and\s+", ",", s, flags=re.IGNORECASE)`: leftmost
non-overlapping matches replaced by a single comma.  The fuel argument
only serves structural recursion; every step consumes at least one
character, so `length + 1` fuel always suffices. -/
def subWsAndWsFuel : Nat → List Char → List Char
  | 0, l => l
  | fuel + 1, l =>
    match matchWsAndWs l with
    | some rest => ',' :: subWsAndWsFuel fuel rest
    | none =>
      match l with
      | [] => []
      | c :: cs => c :: subWsAndWsFuel fuel cs

def subWsAndWs (l : List Char) : List Char := subWsAndWsFuel (l.length + 1) l

/-- `parse_authors` (04, lines 259–297).  The string branch unifies `|`
and `;` to commas, turns whitespace-surrounded `and` into a comma, splits
on commas, trims, drops empties and deduplicates exactly.  Note: `&` is
not touched by this function. -/
def parse_authors : PyAuthor → List String
  | .absent => []
  | .list xs =>
    dedupNonempty [] (xs.map pyStrip)
  | .str s0 =>
    let s1 := pyStrip s0
    if s1 = "" then []
    else
      let s2 := replaceChar ';' ',' (replaceChar '|' ',' s1)
      let s3 := String.mk (subWsAndWs s2.data)
      let parts := (splitOnChar ',' s3.data).map (fun l => String.mk (stripData l))
      dedupNonempty [] parts

/-- The regex `\s+\|\s+` matches at the start of `l`. -/
def matchWsPipeWs (l : List Char) : Bool :=
  let ws1 := l.takeWhile pyIsSpace
  if ws1.isEmpty then false
  else
    match l.drop ws1.length with
    | '|' :: r2 => !(r2.takeWhile pyIsSpace).isEmpty
    | _ => false

/-- `re.sub(r"\s+\|\s+.*$", "", s)` for the single-line strings the caller
passes (a byline never contains a newline): truncate at the first
whitespace-surrounded pipe. -/
def truncAtWsPipe : List Char → List Char
  | [] => []
  | c :: cs => if matchWsPipeWs (c :: cs) then [] else c :: truncAtWsPipe cs

/-- `split_authors_from_byline` (05, lines 47–77). -/
def split_authors_from_byline (byline : String) : List String :=
  let s := pyStrip byline
  if s = "" then []
  else
    let s1 := pyStrip (String.mk (truncAtWsPipe s.data))
    let s2 := String.mk (subWsAndWs s1.data)
    let s3 := replaceChar '&' ',' s2
    let s4 := replaceChar '|' ',' (replaceChar ';' ',' s3)
    let parts := ((splitOnChar ',' s4.data).map
      (fun l => String.mk (stripData l))).filter (fun p => !(p = ""))
    dedupByline [] parts

/-! ## Byline extraction from raw text (05, lines 80–106) -/

/-- `re.match(r"^\s*By\s+(.+?)\s*$", line, re.IGNORECASE)`: the group, as
later stripped by the caller, is the line after the leading whitespace,
the word `by` and at least one further whitespace char, trimmed.  (When
that trimmed rest is empty the regex may fail to match instead, but the
caller treats an empty byline and a failed match identically.) -/
def matchByLine (line : String) : Option String :=
  match line.data.dropWhile pyIsSpace with
  | b :: y :: rest =>
    if b.toLower = 'b' && y.toLower = 'y' then
      match rest with
      | c :: _ => if pyIsSpace c then some (String.mk (stripData rest)) else none
      | [] => none
    else none
  | _ => none

/-- Python `\w` membership (ASCII view; the inputs are ASCII articles). -/
def isWordChar (c : Char) : Bool := c.isAlphanum || c = '_'

/-- A match of `\bBy\s+([A-Z][^\n\r<]{2,80})` starting exactly at `l`,
with `prev` the character before `l` for the word boundary. -/
def m2MatchAt (prev : Option Char) (l : List Char) : Option (List Char) :=
  match l with
  | 'B' :: 'y' :: rest =>
    if (match prev with | some p => !isWordChar p | none => true) then
      let ws := rest.takeWhile pyIsSpace
      if ws.isEmpty then none
      else
        match rest.drop ws.length with
        | c :: cont =>
          if 'A' ≤ c && c ≤ 'Z' then
            let body := (cont.takeWhile (fun x => !(x = '\n' || x = '\r' || x = '<'))).take 80
            if 2 ≤ body.length then some (c :: body) else none
          else none
        | [] => none
    else none
  | _ => none

/-- `re.search` of the same pattern: leftmost match wins. -/
def m2Search (prev : Option Char) : List Char → Option (List Char)
  | [] => none
  | c :: cs =>
    match m2MatchAt prev (c :: cs) with
    | some g => some g
    | none => m2Search (some c) cs

def firstBylineAuthors : List (List Char) → Option (List String)
  | [] => none
  | line :: rest =>
    match matchByLine (String.mk line) with
    | some byline =>
      let as := split_authors_from_byline byline
      if as.isEmpty then firstBylineAuthors rest else some as
    | none => firstBylineAuthors rest

/-- `extract_author_from_raw_text` (05, lines 80–106): scan the first 30
lines of the first 5000 characters for a `By ...` line; fall back to the
`\bBy\s+([A-Z]...)` search over the same head. -/
def extract_author_from_raw_text (raw_text : String) : List String :=
  if raw_text = "" then []
  else
    let head := raw_text.data.take 5000
    let lines := (pySplitlinesData head).take 30
    match firstBylineAuthors lines with
    | some as => as
    | none =>
      match m2Search none head with
      | some g => split_authors_from_byline (String.mk g)
      | none => []

/-! ## Note path parsing and author-line update (05, lines 109–137) -/

/-- The group of `^- raw_saved_path:\s*(.+?)\s*$` once the prefix has been
found at a line start: skip whitespace (which may cross newlines), then
take the rest of that line, right-stripped; pure whitespace to the end of
the string gives an empty group after the caller strips it. -/
def rawPathAfter (after : List Char) : String :=
  match after.dropWhile pyIsSpace with
  | [] => ""
  | q => String.mk (stripData (q.takeWhile (fun c => !(c = '\n'))))

/-- Scan for the first position where the prefix sits at a line start
(position 0 or right after a `\n`, as `re.MULTILINE` anchors). -/
def rawPathFind (pre : List Char) : Bool → List Char → String
  | _, [] => ""
  | atStart, c :: cs =>
    if atStart && startsWithData pre (c :: cs) then
      rawPathAfter ((c :: cs).drop pre.length)
    else rawPathFind pre (c = '\n') cs

/-- `parse_raw_saved_path_from_note` (05, lines 109–118):
`re.search(r"^- raw_saved_path:\s*(.+?)\s*$", content, re.MULTILINE)`,
stripped, or the empty string. -/
def parse_raw_saved_path_from_note (note_content : String) : String :=
  if note_content = "" then ""
  else rawPathFind ("- raw_saved_path:".data) true note_content.data

/-- The `author_line` string of 04 line 213 and 05 line 126. -/
def authorLineOf (authors : List String) : String :=
  "author: " ++ (if authors.isEmpty then "Unknown" else String.intercalate "; " authors)

/-- `NOTE_MAX_CHARS` (05, line 15). -/
def NOTE_MAX_CHARS : Nat := 20000

/-- `update_note_author_line` (05, lines 121–137). -/
def update_note_author_line (note_content : String) (authors : List String) : String :=
  let author_line := authorLineOf authors
  if note_content = "" then author_line
  else
    let lines := pySplitlines note_content
    let updated :=
      match lines with
      | l0 :: restLines =>
        if lowerStartsWith "author:" l0 then joinLines (author_line :: restLines)
        else author_line ++ "\n" ++ note_content
      | [] => author_line ++ "\n" ++ note_content
    pyTake NOTE_MAX_CHARS updated

/-! ## Fallible `int(...)` conversion -/

/-- A JSON numeric-ish field as the code receives it: an integer or an
arbitrary string (the case `int(...)` can choke on). -/
inductive PyConf
  | int (i : Int)
  | str (s : String)
  deriving DecidableEq

/-- Python `int(s)` for a string: optional sign, decimal digits, outer
whitespace allowed (numeric underscores are not modelled). -/
def pyParseIntData (l : List Char) : Option Int :=
  match stripData l with
  | '+' :: ds =>
    if !ds.isEmpty && ds.all isDigitChar then some (digitsVal ds : Int) else none
  | '-' :: ds =>
    if !ds.isEmpty && ds.all isDigitChar then some (-(digitsVal ds : Int)) else none
  | ds =>
    if !ds.isEmpty && ds.all isDigitChar then some (digitsVal ds : Int) else none

/-- `int(x.get(field, 0) or 0)` where the field may be absent, an int or a
string: the only raising path of the two stage-4 scripts. -/
def pyIntOr0 : Option PyConf → Except String Int
  | none => .ok 0
  | some (.int i) => .ok i
  | some (.str s) =>
    if s = "" then .ok 0
    else
      match pyParseIntData s.data with
      | some i => .ok i
      | none => .error ("invalid literal for int(): " ++ s)

/-! ## Fresh STIX ids (`new_stix_id`, uuid4 modelled by a counter) -/

/-- `new_stix_id(stix_type)`: fresh draw number `n` of the run.  The
encoding puts the draw number first so that two distinct draws are
distinct strings, whatever the (input-controlled) type prefixes are. -/
def mkId (stixType : String) (n : Nat) : String :=
  String.mk (List.replicate (n + 1) 'u' ++ '#' :: stixType.data)

theorem replicate_append_cons_inj {c d : Char} {n m : Nat} {xs ys : List Char}
    (hc : ¬ c = d) (h : List.replicate n c ++ d :: xs = List.replicate m c ++ d :: ys) :
    n = m ∧ xs = ys := by
  induction n generalizing m with
  | zero =>
    cases m with
    | zero => simpa using h
    | succ m =>
      rw [List.replicate_succ] at h
      simp only [List.replicate_zero, List.nil_append, List.cons_append,
        List.cons.injEq] at h
      exact absurd h.1.symm hc
  | succ n ih =>
    cases m with
    | zero =>
      rw [List.replicate_succ] at h
      simp only [List.replicate_zero, List.nil_append, List.cons_append,
        List.cons.injEq] at h
      exact absurd h.1 hc
    | succ m =>
      rw [List.replicate_succ, List.replicate_succ] at h
      simp only [List.cons_append, List.cons.injEq, true_and] at h
      have h2 := ih h
      exact ⟨by omega, h2.2⟩

theorem mkId_injective_draw {t t2 : String} {n m : Nat} (h : mkId t n = mkId t2 m) :
    n = m := by
  have hd : (List.replicate (n + 1) 'u' ++ '#' :: t.data)
      = (List.replicate (m + 1) 'u' ++ '#' :: t2.data) := by
    have h2 := congrArg String.data h
    simpa [mkId] using h2
  have h3 := replicate_append_cons_inj (by decide) hd
  omega

/-! ## STIX objects -/

/-- A STIX object as a flat record of the fields the two scripts read or
write; absent JSON fields are `none` / `""` / `[]`. -/
structure StixObj where
  type : String := ""
  id : String := ""
  spec_version : String := "2.1"
  created : String := ""
  modified : String := ""
  created_by_ref : Option String := none
  name : Option String := none
  identity_class : Option String := none
  description : Option String := none
  confidence : Option Int := none
  valid_from : Option String := none
  pattern_type : Option String := none
  pattern : Option String := none
  relationship_type : Option String := none
  source_ref : Option String := none
  target_ref : Option String := none
  content : Option String := none
  object_refs : Option (List String) := none
  published : Option String := none
  report_types : List String := []
  external_references : List (String × String) := []
  x_opencti_content : Option String := none
  x_opencti_clean_sha256 : Option String := none
  deriving DecidableEq

/-- `CREATOR_NAME` (04 line 16, 05 line 14). -/
def CREATOR_NAME : String := "Geopolitical Collector"

def CREATOR_CLASS : String := "organization"

def DEFAULT_REPORT_TYPES : List String := ["threat-report"]

def ALLOWED_INDICATOR_TYPES : List String := ["ip", "domain", "hash"]

/-! ## Input records (JSON documents of §6) -/

structure IndRec where
  indicator_type : String := ""
  value : String := ""
  context : String := ""
  confidence : Option PyConf := none
  deriving DecidableEq

structure ObjRec where
  stix_type : String := ""
  name : String := ""
  description : String := ""
  confidence : Option PyConf := none
  deriving DecidableEq

structure RelRec where
  source_name : String := ""
  source_stix_type : String := ""
  target_name : String := ""
  target_stix_type : String := ""
  relationship_type : String := ""
  deriving DecidableEq

structure Item where
  row_num : Option Int := none
  title : String := ""
  url : String := ""
  retrieval_status : String := ""
  extraction_status : String := ""
  source : String := ""
  author : PyAuthor := .absent
  objects : List ObjRec := []
  indicators : List IndRec := []
  relationships : List RelRec := []
  deriving DecidableEq

structure CleanedItem where
  url : String := ""
  focus_summary : String := ""
  clean_text : String := ""
  clean_sha256 : String := ""
  raw_saved_path : String := ""
  raw_sha256 : String := ""
  raw_char_len : Option PyConf := none
  raw_truncated : Bool := false
  source : String := ""
  author : PyAuthor := .absent
  deriving DecidableEq

structure IncRow where
  url : String := ""
  row_num : Option Int := none
  source : String := ""
  author : PyAuthor := .absent
  deriving DecidableEq

/-! ## Object constructors (04, lines 80–332) -/

/-- `build_indicator` (04, lines 80–141).  The `int(...)` conversion of the
`confidence` field runs before any validation and can raise. -/
def build_indicator (ind : IndRec) (created modified created_by_ref : String)
    (n : Nat) : Except String (Option StixObj × Nat) :=
  let itype := pyLower (pyStrip ind.indicator_type)
  let value := pyStrip ind.value
  let context := pyStrip ind.context
  match pyIntOr0 ind.confidence with
  | .error e => .error e
  | .ok confidence =>
  if itype = "" || value = "" then .ok (none, n)
  else if itype ∉ ALLOWED_INDICATOR_TYPES then .ok (none, n)
  else
    let pat : Option String :=
      if itype = "ip" then
        if is_ip value then
          if isIPv4 value then some ("[ipv4-addr:value = '" ++ value ++ "']")
          else some ("[ipv6-addr:value = '" ++ value ++ "']")
        else none
      else if itype = "domain" then
        if is_domain value then some ("[domain-name:value = '" ++ value ++ "']")
        else none
      else
        match hashKind (pyLower value).data with
        | some alg => some ("[file:hashes." ++ alg ++ " = '" ++ pyLower value ++ "']")
        | none => none
    match pat with
    | none => .ok (none, n)
    | some p =>
      .ok (some {
        type := "indicator"
        id := mkId "indicator" n
        created := created
        modified := modified
        created_by_ref := some created_by_ref
        name := some (pyTake 256 (itype ++ ":" ++ value))
        valid_from := some created
        pattern_type := some "stix"
        pattern := some p
        confidence := if confidence = 0 then none else some confidence
        description := if context = "" then none else some (pyTake 2048 context) }, n + 1)

/-- `stix_object_from_extracted` (04, lines 147–170). -/
def stix_object_from_extracted (obj : ObjRec) (created modified created_by_ref : String)
    (n : Nat) : Except String (StixObj × Nat) :=
  let stix_type := pyStrip obj.stix_type
  let name := pyStrip obj.name
  let description := pyStrip obj.description
  match pyIntOr0 obj.confidence with
  | .error e => .error e
  | .ok confidence =>
  .ok ({
    type := stix_type
    id := mkId stix_type n
    created := created
    modified := modified
    created_by_ref := some created_by_ref
    name := some (pyTake 256 name)
    description := if description = "" then none else some (pyTake 4096 description)
    confidence := if confidence = 0 then none else some confidence
    identity_class := if stix_type = "identity" then some "organization" else none }, n + 1)

/-- `build_relationship` (04 lines 173–195, identical in 05 lines 158–180). -/
def build_relationship (relationship_type source_ref target_ref created modified
    created_by_ref : String) (confidence : Int) (n : Nat) : StixObj × Nat :=
  ({ type := "relationship"
     id := mkId "relationship" n
     created := created
     modified := modified
     created_by_ref := some created_by_ref
     relationship_type := some relationship_type
     source_ref := some source_ref
     target_ref := some target_ref
     confidence := if confidence = 0 then none else some confidence }, n + 1)

/-- `build_note_for_author_and_raw` (04, lines 198–245). -/
def build_note_for_author_and_raw (created modified created_by_ref report_id
    article_url publisher_name : String) (authors : List String)
    (raw_saved_path raw_sha256 : String) (raw_char_len : Int) (raw_truncated : Bool)
    (n : Nat) : StixObj × Nat :=
  let author_line := authorLineOf authors
  let publisher_line :=
    "publisher: " ++ (if publisher_name = "" then "Unknown Publisher" else publisher_name)
  let lines :=
    if !(raw_saved_path = "") || (!(raw_sha256 = "") && sha256_like raw_sha256) then
      [author_line, publisher_line, "raw_text_ref:",
       "- article_url: " ++ article_url,
       "- raw_saved_path: " ++ raw_saved_path,
       "- raw_sha256: " ++ raw_sha256,
       "- raw_char_len: " ++ toString raw_char_len,
       "- raw_truncated: " ++ (if raw_truncated then "True" else "False")]
    else [author_line, publisher_line, "raw_text_ref: (not available)"]
  let content := pyStrip (joinLines lines)
  ({ type := "note"
     id := mkId "note" n
     created := created
     modified := modified
     created_by_ref := some created_by_ref
     content := some (pyTake 20000 content)
     object_refs := some [report_id] }, n + 1)

/-- `make_publisher_identity` (04, lines 300–314): deliberately carries no
`created_by_ref`. -/
def make_publisher_identity (name created modified : String) (n : Nat) : StixObj × Nat :=
  ({ type := "identity"
     id := mkId "identity" n
     created := created
     modified := modified
     name := some (pyTake 256 name)
     identity_class := some "organization" }, n + 1)

/-- The fixed disclaimer description of author identities
(04 lines 318–321, 05 lines 141–144). -/
def AUTHOR_DESC : String :=
  "Author name as listed in the source article. " ++
  "May represent a pseudonym/handle/persona; not asserted as a verified " ++
  "real-world individual at ingestion time."

/-- `make_author_identity` (04 lines 317–332, identical in 05 lines 140–155). -/
def make_author_identity (name created modified created_by_ref : String)
    (n : Nat) : StixObj × Nat :=
  ({ type := "identity"
     id := mkId "identity" n
     created := created
     modified := modified
     created_by_ref := some created_by_ref
     name := some (pyTake 256 name)
     identity_class := some "individual"
     description := some AUTHOR_DESC }, n + 1)

/-! ## Manifest (04, lines 420–427, 475–484, 586–596, 661–674) -/

structure SkippedIndicator where
  indicator_type : String := ""
  value : String := ""
  reason : String := ""
  deriving DecidableEq

structure SkippedEntry where
  row_num : Option Int := none
  title : String := ""
  url : String := ""
  retrieval_status : String := ""
  extraction_status : String := ""
  reason : String := ""
  deriving DecidableEq

structure ReportEntry where
  row_num : Option Int := none
  title : String := ""
  url : String := ""
  report_id : String := ""
  publisher : String := ""
  authors : List String := []
  object_refs_count : Nat := 0
  has_clean_text : Bool := false
  has_raw_ref : Bool := false
  skipped_indicators : List SkippedIndicator := []
  deriving DecidableEq

structure Manifest where
  reports : List ReportEntry := []
  skipped : List SkippedEntry := []
  deriving DecidableEq

/-! ## Registries and the build state (04, `GlobalRegistry` lines 335–350) -/

/-- First-match association-list lookup; insertions prepend, so a
prepending insert has Python-dict overwrite semantics for lookups. -/
def alistLookup {K V : Type} [DecidableEq K] (m : List (K × V)) (k : K) : Option V :=
  match m with
  | [] => none
  | (k2, v) :: rest => if k = k2 then some v else alistLookup rest k

/-- Python-dict insertion that preserves first-insertion order (used for
the per-article `id_map`, whose `.values()` order the code relies on). -/
def dictInsert {K V : Type} [DecidableEq K] (m : List (K × V)) (k : K) (v : V) :
    List (K × V) :=
  if (alistLookup m k).isSome then m.map (fun kv => if kv.1 = k then (k, v) else kv)
  else m ++ [(k, v)]

/-- `cleaned_by_url` / `included_by_url` lookup: dict built with
`d[safe_str(r["url"])] = r` for non-empty keys (last one wins). -/
def dictGetLast {α : Type} (key : α → String) (rows : List α) (k : String) : Option α :=
  if k = "" then none else (rows.filter (fun r => key r = k)).getLast?

structure BuildSt where
  objects : List StixObj := []
  sdo_ids : List ((String × String) × String) := []
  ind_ids : List ((String × String) × String) := []
  publisher_ids : List (String × String) := []
  author_ids : List ((String × String) × String) := []
  manifest : Manifest := {}
  counter : Nat := 0
  deriving DecidableEq

structure BuildCtx where
  created : String := ""
  modified : String := ""
  creator_id : String := ""
  cleaned : List CleanedItem := []
  included : List IncRow := []

/-- `get_or_create_publisher_id` (04, lines 447–454). -/
def get_or_create_publisher_id (created modified : String) (publisher_name : String)
    (st : BuildSt) : String × BuildSt :=
  let name := if pyStrip publisher_name = "" then "Unknown Publisher" else pyStrip publisher_name
  match alistLookup st.publisher_ids name with
  | some i => (i, st)
  | none =>
    let (pub, n2) := make_publisher_identity name created modified st.counter
    (pub.id, { st with objects := st.objects ++ [pub]
                       publisher_ids := (name, pub.id) :: st.publisher_ids
                       counter := n2 })

/-- `get_or_create_author_id` (04, lines 456–465), over the author map, the
id counter and the object list it appends to. -/
def get_or_create_author_id (created modified creator_id : String)
    (publisher_name author_name : String)
    (amap : List ((String × String) × String)) (n : Nat) (objs : List StixObj) :
    String × List ((String × String) × String) × Nat × List StixObj :=
  let pub_name := if pyStrip publisher_name = "" then "Unknown Publisher" else pyStrip publisher_name
  let key := (pub_name, normalize_author_key author_name)
  match alistLookup amap key with
  | some i => (i, amap, n, objs)
  | none =>
    let (auth, n2) := make_author_identity author_name created modified creator_id n
    (auth.id, (key, auth.id) :: amap, n2, objs ++ [auth])

/-! ## The per-article loop of `main` (04, lines 467–674) -/

/-- The SDO registration loop (04, lines 514–527): global dedup through
`sdo_ids`, and the per-article `id_map`. -/
def processSdos (ctx : BuildCtx) : List ObjRec → BuildSt → List ((String × String) × String) →
    Except String (BuildSt × List ((String × String) × String))
  | [], st, idMap => .ok (st, idMap)
  | obj :: rest, st, idMap =>
    let s := pyStrip obj.stix_type
    let nm := pyStrip obj.name
    if s = "" || nm = "" then processSdos ctx rest st idMap
    else
      match alistLookup st.sdo_ids (s, nm) with
      | some i => processSdos ctx rest st (dictInsert idMap (s, nm) i)
      | none =>
        match stix_object_from_extracted obj ctx.created ctx.modified ctx.creator_id st.counter with
        | .error e => .error e
        | .ok on2 =>
          let st2 := { st with objects := st.objects ++ [on2.1]
                               sdo_ids := ((s, nm), on2.1.id) :: st.sdo_ids
                               counter := on2.2 }
          processSdos ctx rest st2 (dictInsert idMap (s, nm) on2.1.id)

/-- The indicator loop (04, lines 529–551): validation, the per-article
`skipped_indicators` list, global dedup through `ind_ids`. -/
def processIndicators (ctx : BuildCtx) : List IndRec → BuildSt → List String →
    List SkippedIndicator → Except String (BuildSt × List String × List SkippedIndicator)
  | [], st, ids, skipped => .ok (st, ids, skipped)
  | ind :: rest, st, ids, skipped =>
    let itype := pyLower (pyStrip ind.indicator_type)
    let value := pyStrip ind.value
    if itype = "" || value = "" then processIndicators ctx rest st ids skipped
    else
      match build_indicator ind ctx.created ctx.modified ctx.creator_id st.counter with
      | .error e => .error e
      | .ok cn =>
      match cn.1 with
      | none =>
        processIndicators ctx rest { st with counter := cn.2 } ids
          (skipped ++ [{ indicator_type := itype, value := value
                         reason := "invalid_or_not_allowed_for_indicator" }])
      | some c =>
        match alistLookup st.ind_ids (itype, value) with
        | some i =>
          processIndicators ctx rest { st with counter := cn.2 } (ids ++ [i]) skipped
        | none =>
          let st2 := { st with objects := st.objects ++ [c]
                               ind_ids := ((itype, value), c.id) :: st.ind_ids
                               counter := cn.2 }
          processIndicators ctx rest st2 (ids ++ [c.id]) skipped

/-- The relationship loop (04, lines 553–578): both endpoints must resolve
in the per-article `id_map`, with a per-article `seen_rel` dedup set. -/
def processRels (ctx : BuildCtx) (idMap : List ((String × String) × String)) :
    List RelRec → BuildSt → List String → List (String × String × String) →
    BuildSt × List String
  | [], st, ids, _ => (st, ids)
  | rel :: rest, st, ids, seen =>
    let s_name := pyStrip rel.source_name
    let s_type := pyStrip rel.source_stix_type
    let t_name := pyStrip rel.target_name
    let t_type := pyStrip rel.target_stix_type
    let r_type := if rel.relationship_type = "" then "related-to" else pyStrip rel.relationship_type
    if s_name = "" || s_type = "" || t_name = "" || t_type = "" then
      processRels ctx idMap rest st ids seen
    else
      match alistLookup idMap (s_type, s_name), alistLookup idMap (t_type, t_name) with
      | some s_ref, some t_ref =>
        if (s_ref, r_type, t_ref) ∈ seen then processRels ctx idMap rest st ids seen
        else
          let rn := build_relationship r_type s_ref t_ref ctx.created ctx.modified ctx.creator_id 0 st.counter
          processRels ctx idMap rest
            { st with objects := st.objects ++ [rn.1], counter := rn.2 }
            (ids ++ [rn.1.id]) ((s_ref, r_type, t_ref) :: seen)
      | _, _ => processRels ctx idMap rest st ids seen

/-- The author loop of an accepted article (04, lines 644–659): identities
via `get_or_create_author_id`, then a `created-by` and a `related-to` edge
per author, appended unconditionally (no dedup set is consulted).  New
objects go to an accumulator that the caller appends after the report and
the note, which reproduces the in-place Python order. -/
def authorStep (created modified creator_id publisher_name report_id publisher_id : String) :
    List String → List ((String × String) × String) → Nat → List StixObj → List String →
    List ((String × String) × String) × Nat × List StixObj × List String
  | [], amap, n, accObjs, accRefs => (amap, n, accObjs, accRefs)
  | a :: rest, amap, n, accObjs, accRefs =>
    let g := get_or_create_author_id created modified creator_id publisher_name a amap n accObjs
    let aid := g.1
    let rcb := build_relationship "created-by" report_id aid created modified creator_id 60 g.2.2.1
    let rrt := build_relationship "related-to" aid publisher_id created modified creator_id 40 rcb.2
    authorStep created modified creator_id publisher_name report_id publisher_id rest
      g.2.1 rrt.2 (g.2.2.2 ++ [rcb.1, rrt.1]) (accRefs ++ [rcb.1.id, rrt.1.id])

/-- One iteration of `for it in items` (04, lines 467–674). -/
def processItem (ctx : BuildCtx) (st : BuildSt) (it : Item) : Except String BuildSt :=
  let title := pyStrip it.title
  let url := pyStrip it.url
  let retrieval_status := pyStrip it.retrieval_status
  let extraction_status := pyStrip it.extraction_status
  if !(retrieval_status = "ok") || !(extraction_status = "ok") then
    .ok { st with manifest := { st.manifest with skipped := st.manifest.skipped ++
      [{ row_num := it.row_num, title := title, url := url
         retrieval_status := retrieval_status, extraction_status := extraction_status
         reason := "skip: not ok" }] } }
  else
    let c := (dictGetLast (fun r => pyStrip r.url) ctx.cleaned url).getD {}
    let focus_summary := pyStrip c.focus_summary
    let clean_text := pyStrip c.clean_text
    let clean_sha256 := pyStrip c.clean_sha256
    let raw_saved_path := pyStrip c.raw_saved_path
    let raw_sha256 := pyStrip c.raw_sha256
    match pyIntOr0 c.raw_char_len with
    | .error e => .error e
    | .ok raw_char_len =>
    let raw_truncated := c.raw_truncated
    let incByUrl := dictGetLast (fun r => pyStrip r.url) ctx.included url
    let inc0 : Option IncRow :=
      match incByUrl with
      | some r => some r
      | none =>
        match it.row_num with
        | some rn => (ctx.included.filter (fun r => r.row_num = some rn)).getLast?
        | none => none
    let inc := inc0.getD {}
    let publisher_name :=
      if !(pyStrip inc.source = "") then pyStrip inc.source
      else if !(pyStrip c.source = "") then pyStrip c.source
      else if !(pyStrip it.source = "") then pyStrip it.source
      else "Unknown Publisher"
    let authors := parse_authors
      (if inc.author.truthy then inc.author
       else if c.author.truthy then c.author else it.author)
    let pidSt := get_or_create_publisher_id ctx.created ctx.modified publisher_name st
    let publisher_id := pidSt.1
    match processSdos ctx it.objects pidSt.2 [] with
    | .error e => .error e
    | .ok stIdMap =>
    match processIndicators ctx it.indicators stIdMap.1 [] [] with
    | .error e => .error e
    | .ok stInds =>
    let stRels := processRels ctx stIdMap.2 it.relationships stInds.1 [] []
    let st4 := stRels.1
    let object_refs0 := stIdMap.2.map (fun kv => kv.2) ++ stInds.2.1 ++ stRels.2
    if object_refs0.isEmpty then
      .ok { st4 with manifest := { st4.manifest with skipped := st4.manifest.skipped ++
        [{ row_num := it.row_num, title := title, url := url
           retrieval_status := retrieval_status, extraction_status := extraction_status
           reason := "skip: no objects/indicators/relationships" }] } }
    else
      let report_name := pyTake 256
        (if !(title = "") then title
         else if !(focus_summary = "") then focus_summary else "Untitled Report")
      let report_description := if focus_summary = "" then "" else pyTake 4096 focus_summary
      let report_id := mkId "report" st4.counter
      let note := build_note_for_author_and_raw ctx.created ctx.modified ctx.creator_id
        report_id url publisher_name authors raw_saved_path raw_sha256 raw_char_len
        raw_truncated (st4.counter + 1)
      let astep := authorStep ctx.created ctx.modified ctx.creator_id publisher_name
        report_id publisher_id authors st4.author_ids note.2 [] []
      let object_refs := object_refs0 ++ [note.1.id] ++ astep.2.2.2
      let report : StixObj :=
        { type := "report"
          id := report_id
          created := ctx.created
          modified := ctx.modified
          created_by_ref := some publisher_id
          name := some report_name
          description := some report_description
          published := some ctx.created
          report_types := DEFAULT_REPORT_TYPES
          external_references := if url = "" then [] else [("source", url)]
          object_refs := some object_refs
          x_opencti_content := if clean_text = "" then none else some clean_text
          x_opencti_clean_sha256 :=
            if !(clean_sha256 = "") && sha256_like clean_sha256 then some clean_sha256
            else none }
      .ok { st4 with
        objects := st4.objects ++ [report, note.1] ++ astep.2.2.1
        author_ids := astep.1
        counter := astep.2.1
        manifest := { st4.manifest with reports := st4.manifest.reports ++
          [{ row_num := it.row_num, title := title, url := url
             report_id := report_id
             publisher := publisher_name
             authors := authors
             object_refs_count := object_refs.length
             has_clean_text := !(clean_text = "")
             has_raw_ref := !(raw_saved_path = "") || !(raw_sha256 = "")
             skipped_indicators := stInds.2.2 }] } }

/-- The item fold of `main` (04): an error while processing one item stops
the whole run (there is no try/except around the loop body). -/
def buildFold (ctx : BuildCtx) : List Item → BuildSt → Except String BuildSt
  | [], st => .ok st
  | it :: rest, st =>
    match processItem ctx st it with
    | .error e => .error e
    | .ok st2 => buildFold ctx rest st2

/-- `main` of 04 (lines 353–691), from the parsed inputs to the bundle
object list and the manifest; file-path handling and printing are outside
the embedding.  The creator identity is allocated first and heads the
object list (lines 406–417). -/
def buildBundle (items : List Item) (cleaned : List CleanedItem) (included : List IncRow)
    (created : String) : Except String (List StixObj × Manifest × Nat) :=
  let creator : StixObj :=
    { type := "identity"
      id := mkId "identity" 0
      created := created
      modified := created
      name := some CREATOR_NAME
      identity_class := some CREATOR_CLASS }
  let ctx : BuildCtx :=
    { created := created, modified := created, creator_id := creator.id
      cleaned := cleaned, included := included }
  let st0 : BuildSt := { objects := [creator], counter := 1 }
  match buildFold ctx items st0 with
  | .error e => .error e
  | .ok stF => .ok (stF.objects, stF.manifest, stF.counter)

/-! ## The Enrichment Pass (05, `main`, lines 183–366)

The embedding takes the parsed bundle object list, the timestamp, the id
counter and the file system (`files`) and returns the mutated object list
together with the four counters that `main` writes into the bundle as
`x_enrichment` (the advisory `x_enriched_at` timestamp and the output
path handling are outside the embedding; the `by_id` index is only used
to look up the publisher name for the final log line and is therefore
not modelled). -/

structure EnrichOut where
  objects : List StixObj := []
  changed_reports : Nat := 0
  added_identities : Nat := 0
  added_relationships : Nat := 0
  updated_notes : Nat := 0
  counter : Nat := 0
  deriving DecidableEq

/-- The collector-identity lookup (05, lines 218–231): first identity whose
name is `CREATOR_NAME`, else the first identity at all, else the fatal
`ValueError`. -/
def findCollectorId (objs : List StixObj) : Except String String :=
  let cid :=
    match objs.find? (fun o => o.type = "identity" && safeStrO o.name = CREATOR_NAME) with
    | some o => pyStrip o.id
    | none => ""
  let cid2 :=
    if cid = "" then
      match objs.find? (fun o => o.type = "identity") with
      | some o => pyStrip o.id
      | none => ""
    else cid
  if cid2 = "" then
    .error "No identity found in bundle to use as collector (created_by_ref)."
  else .ok cid2

/-- `existing_author_ids` (05, lines 233–240): scan identities of class
`individual`, keyed by the normalized name; a later object overwrites an
earlier one (prepending gives the same lookups). -/
def rebuildAuthorMap (objs : List StixObj) : List (String × String) :=
  objs.foldl (fun m o =>
    if o.type = "identity" && safeStrO o.identity_class = "individual" &&
       !(safeStrO o.name = "") then
      (normalize_author_key (safeStrO o.name), pyStrip o.id) :: m
    else m) []

/-- `rel_keys` (05, lines 242–246). -/
def rebuildRelKeys (objs : List StixObj) : List (String × String × String) :=
  objs.foldl (fun ks o =>
    if o.type = "relationship" then
      (safeStrO o.source_ref, safeStrO o.relationship_type, safeStrO o.target_ref) :: ks
    else ks) []

def noteRefsReport (o : StixObj) (rid : String) : Bool :=
  match o.object_refs with
  | some refs => refs.contains rid
  | none => false

/-- `find_note_for_report` (05, lines 254–267): prefer a referencing note
whose content starts with `author:`, else any referencing note; the
candidate list is the index list of the notes present at the start of the
run, their contents are read from the current object list. -/
def find_note_for_report (objs : List StixObj) (noteIdxs : List Nat) (rid : String) :
    Option Nat :=
  match noteIdxs.find? (fun i =>
      noteRefsReport (objs.getD i {}) rid &&
      lowerStartsWith "author:" (safeStrO (objs.getD i {}).content)) with
  | some i => some i
  | none => noteIdxs.find? (fun i => noteRefsReport (objs.getD i {}) rid)

structure EnSt where
  objs : List StixObj := []
  amap : List (String × String) := []
  relKeys : List (String × String × String) := []
  changed_reports : Nat := 0
  added_identities : Nat := 0
  added_relationships : Nat := 0
  updated_notes : Nat := 0
  counter : Nat := 0
  deriving DecidableEq

/-- The per-author body of the enrichment loop (05, lines 311–343):
resolution is keyed by the normalized name alone (not by publisher). -/
def enrichAuthors (created collector_id rep_id publisher_id : String) :
    List String → EnSt → List String → EnSt × List String
  | [], st, newRefs => (st, newRefs)
  | a :: rest, st, newRefs =>
    let key := normalize_author_key a
    if key = "" then enrichAuthors created collector_id rep_id publisher_id rest st newRefs
    else
      let p1 : String × EnSt :=
        match alistLookup st.amap key with
        | some i => (i, st)
        | none =>
          let auth := make_author_identity a created created collector_id st.counter
          (pyStrip auth.1.id,
           { st with objs := st.objs ++ [auth.1]
                     amap := (key, pyStrip auth.1.id) :: st.amap
                     added_identities := st.added_identities + 1
                     counter := auth.2 })
      let author_id := p1.1
      let p2 : EnSt × List String :=
        if (rep_id, "created-by", author_id) ∈ p1.2.relKeys then (p1.2, newRefs)
        else
          let r1 := build_relationship "created-by" rep_id author_id created created
            collector_id 60 p1.2.counter
          ({ p1.2 with objs := p1.2.objs ++ [r1.1]
                       relKeys := (rep_id, "created-by", author_id) :: p1.2.relKeys
                       added_relationships := p1.2.added_relationships + 1
                       counter := r1.2 }, newRefs ++ [pyStrip r1.1.id])
      let p3 : EnSt × List String :=
        if publisher_id = "" then p2
        else if (author_id, "related-to", publisher_id) ∈ p2.1.relKeys then p2
        else
          let r2 := build_relationship "related-to" author_id publisher_id created created
            collector_id 40 p2.1.counter
          ({ p2.1 with objs := p2.1.objs ++ [r2.1]
                       relKeys := (author_id, "related-to", publisher_id) :: p2.1.relKeys
                       added_relationships := p2.1.added_relationships + 1
                       counter := r2.2 }, p2.2 ++ [pyStrip r2.1.id])
      enrichAuthors created collector_id rep_id publisher_id rest p3.1 p3.2

/-- One iteration of `for rep in reports` (05, lines 269–345). -/
def enrichReport (files : String → Option String) (created collector_id : String)
    (noteIdxs : List Nat) (st : EnSt) (repIdx : Nat) : EnSt :=
  let rep := st.objs.getD repIdx {}
  let rep_id := pyStrip rep.id
  if rep_id = "" then st
  else
    let publisher_id := safeStrO rep.created_by_ref
    match find_note_for_report st.objs noteIdxs rep_id with
    | none => st
    | some ni =>
      let note := st.objs.getD ni {}
      let raw_path := parse_raw_saved_path_from_note (safeStrO note.content)
      if raw_path = "" then st
      else
        match files raw_path with
        | none => st
        | some raw_text =>
          let authors := extract_author_from_raw_text raw_text
          if authors.isEmpty then st
          else
            let new_content := update_note_author_line (safeStrO note.content) authors
            let stA :=
              if !(new_content = safeStrO note.content) then
                { st with objs := st.objs.set ni { note with content := some new_content }
                          updated_notes := st.updated_notes + 1 }
              else st
            let rep2 := stA.objs.getD repIdx {}
            let ar := enrichAuthors created collector_id rep_id publisher_id authors stA []
            let rep3 := { rep2 with object_refs := some (rep2.object_refs.getD [] ++ ar.2) }
            { ar.1 with objs := ar.1.objs.set repIdx rep3
                        changed_reports := ar.1.changed_reports + 1 }

/-- `main` of 05 from the parsed bundle to the mutated object list and the
`x_enrichment` counters. -/
def enrichObjects (files : String → Option String) (created : String)
    (objs0 : List StixObj) (counter : Nat) : Except String EnrichOut :=
  match findCollectorId objs0 with
  | .error e => .error e
  | .ok collector_id =>
  let noteIdxs := (List.range objs0.length).filter (fun i => (objs0.getD i {}).type = "note")
  let repIdxs := (List.range objs0.length).filter (fun i => (objs0.getD i {}).type = "report")
  let st0 : EnSt :=
    { objs := objs0
      amap := rebuildAuthorMap objs0
      relKeys := rebuildRelKeys objs0
      counter := counter }
  let stF := repIdxs.foldl (enrichReport files created collector_id noteIdxs) st0
  .ok { objects := stF.objs
        changed_reports := stF.changed_reports
        added_identities := stF.added_identities
        added_relationships := stF.added_relationships
        updated_notes := stF.updated_notes
        counter := stF.counter }

/-! ## Claim-level derived notions and concrete fixtures -/

/-- The value check of claim C5, matched to the declared (lower-cased)
type: a valid IPv4/IPv6 address for `ip`, a syntactically valid domain
for `domain`, a hex string of length 32/40/64 for `hash`; any other
declared type admits no value. -/
def validFor (itype value : String) : Bool :=
  if itype = "ip" then is_ip value
  else if itype = "domain" then is_domain value
  else if itype = "hash" then (hashKind (pyLower value).data).isSome
  else false

/-- The record-level resolvability test of claim C6: nonempty endpoint
names and types, both resolving in the per-article id map. -/
def relResolvable (idMap : List ((String × String) × String)) (rel : RelRec) : Bool :=
  !(pyStrip rel.source_name = "") && !(pyStrip rel.source_stix_type = "") &&
  !(pyStrip rel.target_name = "") && !(pyStrip rel.target_stix_type = "") &&
  (alistLookup idMap (pyStrip rel.source_stix_type, pyStrip rel.source_name)).isSome &&
  (alistLookup idMap (pyStrip rel.target_stix_type, pyStrip rel.target_name)).isSome

/-- The dedup triple of a relationship object, if any. -/
def relTriple (o : StixObj) : Option (String × String × String) :=
  if o.type = "relationship" then
    some (o.source_ref.getD "", (o.relationship_type.getD "", o.target_ref.getD ""))
  else none

/-- Projection helpers for closed statements over `Except` results. -/
def bundleObjectsOf (r : Except String (List StixObj × Manifest × Nat)) : List StixObj :=
  match r with
  | .ok (objs, _, _) => objs
  | .error _ => []

def manifestOf (r : Except String (List StixObj × Manifest × Nat)) : Manifest :=
  match r with
  | .ok (_, man, _) => man
  | .error _ => {}

/-! Concrete fixtures used by witnesses and counterexamples. -/

def c6IdMap : List ((String × String) × String) := [(("malware", "Lockbit"), "u#malware")]

def c6Rec : RelRec :=
  { source_name := "Lockbit", source_stix_type := "malware"
    target_name := "Lockbit", target_stix_type := "malware"
    relationship_type := "uses" }

def c7Item (u : String) : Item :=
  { title := "t", url := u, retrieval_status := "ok", extraction_status := "ok"
    objects := [{ stix_type := "malware", name := "L" }]
    author := .str "Bill" }

def c7Items : List Item := [c7Item "http://a", c7Item "http://b"]

/-- The rejection record the indicator loop writes for a candidate, if
any: nonempty type and value, failing the declared-type check. -/
def rejectEntry (ind : IndRec) : Option SkippedIndicator :=
  let itype := pyLower (pyStrip ind.indicator_type)
  let value := pyStrip ind.value
  if itype = "" then none
  else if value = "" then none
  else if validFor itype value then none
  else some { indicator_type := itype, value := value
              reason := "invalid_or_not_allowed_for_indicator" }

def isOkE {α : Type} (r : Except String α) : Bool :=
  match r with
  | .ok _ => true
  | .error _ => false

def c3BadItem : Item :=
  { title := "bad", url := "http://bad", retrieval_status := "ok", extraction_status := "ok"
    indicators := [{ indicator_type := "ip", value := "1.2.3.4"
                     confidence := some (.str "boom") }] }

def c4Item : Item :=
  { title := "only bogus", url := "http://c4", retrieval_status := "ok"
    extraction_status := "ok"
    indicators := [{ indicator_type := "other", value := "bogus" }] }

def idsOf (objs : List StixObj) : List String := objs.map (fun o => o.id)

def mapRange {K : Type} (m : List (K × String)) : List String := m.map (fun kv => kv.2)

/-- No dangling references: every id in a Report object_refs list names
an object of the bundle. -/
def refsValid (objs : List StixObj) : Prop :=
  ∀ o ∈ objs, o.type = "report" → ∀ rid ∈ o.object_refs.getD [], ∃ p ∈ objs, p.id = rid

/-- The build-run invariant: reports have no dangling refs and every
registry value is the id of an object already in the list. -/
def InvB (st : BuildSt) : Prop :=
  refsValid st.objects ∧
  (∀ v ∈ mapRange st.sdo_ids, v ∈ idsOf st.objects) ∧
  (∀ v ∈ mapRange st.ind_ids, v ∈ idsOf st.objects) ∧
  (∀ v ∈ mapRange st.publisher_ids, v ∈ idsOf st.objects) ∧
  (∀ v ∈ mapRange st.author_ids, v ∈ idsOf st.objects)

/-- Projection for closed statements over `Except`-valued item steps. -/
def stOf (r : Except String BuildSt) : BuildSt :=
  match r with
  | .ok st => st
  | .error _ => {}

def c3SkipItem : Item :=
  { title := "s", url := "http://s", retrieval_status := "error", extraction_status := "ok" }

def c4MixItem : Item :=
  { title := "mix", url := "http://mix", retrieval_status := "ok", extraction_status := "ok"
    indicators := [{ indicator_type := "ip", value := "1.2.3.4" },
                   { indicator_type := "other", value := "bogus" }] }

def tCtx : BuildCtx := { created := "T", modified := "T", creator_id := "u#identity" }

def counterOf (r : Except String (List StixObj × Manifest × Nat)) : Nat :=
  match r with
  | .ok (_, _, n) => n
  | .error _ => 0

/-- One enrichment micro-step is sound: the object list only grows by
ref-free objects and every new ref resolves in the grown list. -/
def StepOK (objs objs2 : List StixObj) (refs refs2 : List String) : Prop :=
  (∃ tail, objs2 = objs ++ tail ∧ ∀ o ∈ tail, o.object_refs = none) ∧
  (∀ r ∈ refs2, r ∈ refs ∨ ∃ p ∈ objs2, p.id = r)

def c8Item : Item :=
  { title := "t8", url := "http://c8", retrieval_status := "ok", extraction_status := "ok"
    indicators := [{ indicator_type := "ip", value := "1.2.3.4" },
                   { indicator_type := "ip", value := "1.2.3.4" }] }

def enOutOf (r : Except String EnrichOut) : EnrichOut :=
  match r with
  | .ok o => o
  | .error _ => {}

/-- A bundle with the same byline under two different publishers, for
probing the enrichment pass's author scoping. -/
def c2Objs : List StixObj :=
  [{ type := "identity", id := "u#identity", created := "T", modified := "T"
     name := some "Geopolitical Collector", identity_class := some "organization" },
   { type := "identity", id := "pA", created := "T", modified := "T"
     name := some "Alpha News", identity_class := some "organization" },
   { type := "identity", id := "pB", created := "T", modified := "T"
     name := some "Beta Wire", identity_class := some "organization" },
   { type := "report", id := "r1", created := "T", modified := "T"
     created_by_ref := some "pA", name := some "R1", object_refs := some ["n1"] },
   { type := "note", id := "n1", created := "T", modified := "T"
     content := some "author: x\n- raw_saved_path: f1", object_refs := some ["r1"] },
   { type := "report", id := "r2", created := "T", modified := "T"
     created_by_ref := some "pB", name := some "R2", object_refs := some ["n2"] },
   { type := "note", id := "n2", created := "T", modified := "T"
     content := some "author: x\n- raw_saved_path: f2", object_refs := some ["r2"] }]

def c2Files : String → Option String := fun p =>
  if p = "f1" then some "By John Smith"
  else if p = "f2" then some "By John Smith"
  else none

/-- An author name is already settled for a report in the enrichment
state: its normalized key is empty, or it resolves in the author map and
both attribution edges are already known. -/
def authorStable (rep_id publisher_id : String) (amap : List (String × String))
    (relKeys : List (String × String × String)) (a : String) : Bool :=
  normalize_author_key a = "" ||
  (match alistLookup amap (normalize_author_key a) with
   | none => false
   | some i =>
     decide ((rep_id, "created-by", i) ∈ relKeys) &&
     (publisher_id = "" || decide ((i, "related-to", publisher_id) ∈ relKeys)))

/-- A report is already settled for the enrichment pass: it is skipped by
one of the early exits, or its note's author line is already the
extracted one, its `object_refs` is present, and every extracted author
is settled. -/
def reportStable (files : String → Option String) (objs : List StixObj)
    (noteIdxs : List Nat) (amap : List (String × String))
    (relKeys : List (String × String × String)) (repIdx : Nat) : Bool :=
  let rep := objs.getD repIdx {}
  let rep_id := pyStrip rep.id
  if rep_id = "" then true
  else
    match find_note_for_report objs noteIdxs rep_id with
    | none => true
    | some ni =>
      let note := objs.getD ni {}
      let raw_path := parse_raw_saved_path_from_note (safeStrO note.content)
      if raw_path = "" then true
      else
        match files raw_path with
        | none => true
        | some raw_text =>
          let authors := extract_author_from_raw_text raw_text
          if authors.isEmpty then true
          else
            (update_note_author_line (safeStrO note.content) authors
              = safeStrO note.content) &&
            rep.object_refs.isSome &&
            authors.all (authorStable rep_id (safeStrO rep.created_by_ref) amap relKeys)

def cxName : String := String.mk (List.replicate 260 'a')

/-- A bundle whose one report's byline is a 260-character name. -/
def cxObjs : List StixObj :=
  [{ type := "identity", id := "u#identity", created := "T", modified := "T"
     name := some "Geopolitical Collector", identity_class := some "organization" },
   { type := "identity", id := "pA", created := "T", modified := "T"
     name := some "Alpha News", identity_class := some "organization" },
   { type := "report", id := "r1", created := "T", modified := "T"
     created_by_ref := some "pA", name := some "R1", object_refs := some ["n1"] },
   { type := "note", id := "n1", created := "T", modified := "T"
     content := some "author: x\n- raw_saved_path: f1", object_refs := some ["r1"] }]

def cxFiles : String → Option String := fun p =>
  if p = "f1" then some ("By " ++ cxName) else none

end CrawlServer

namespace CrawlServer

/-! ## Claim C5: the Indicator Builder -/

theorem isIPv4_ne_empty {v : String} (h : isIPv4 v = true) : ¬ v = "" := by
  intro he
  subst he
  simp [isIPv4, isIPv4Data, splitOnChar, splitOnCharAux] at h

/-- C5.  For an input whose declared indicator type normalizes to `ip` and
whose (trimmed) value is a valid IPv4 literal, `build_indicator` returns
an Indicator whose pattern is exactly `[ipv4-addr:value = '<value>']`;
and for an input whose value fails the syntactic check of its declared
type (valid IPv4/IPv6 for `ip`, valid domain for `domain`, hex of length
32/40/64 for `hash`, nothing for any other type), it returns no object.
Both parts assume the `int(confidence)` conversion does not raise. -/
theorem C5_indicator_builder :
    (∀ (ind : IndRec) (created modified cbr : String) (n : Nat) (cv : Int),
      pyIntOr0 ind.confidence = .ok cv →
      pyLower (pyStrip ind.indicator_type) = "ip" →
      isIPv4 (pyStrip ind.value) = true →
      ∃ o : StixObj,
        build_indicator ind created modified cbr n = .ok (some o, n + 1) ∧
        o.pattern = some ("[ipv4-addr:value = '" ++ pyStrip ind.value ++ "']")) ∧
    (∀ (ind : IndRec) (created modified cbr : String) (n : Nat) (cv : Int),
      pyIntOr0 ind.confidence = .ok cv →
      validFor (pyLower (pyStrip ind.indicator_type)) (pyStrip ind.value) = false →
      build_indicator ind created modified cbr n = .ok (none, n)) := by
  constructor
  · intro ind created modified cbr n cv hconf htype hval
    have hne : ¬ pyStrip ind.value = "" := isIPv4_ne_empty hval
    have hip : is_ip (pyStrip ind.value) = true := by simp [is_ip, hval]
    simp only [build_indicator, hconf, htype]
    simp only [hip, hval, if_true]
    simp [hne, ALLOWED_INDICATOR_TYPES]
  · intro ind created modified cbr n cv hconf hvf
    simp only [build_indicator, hconf]
    by_cases h1 : (pyLower (pyStrip ind.indicator_type) = "" ∨ pyStrip ind.value = "")
    · rcases h1 with h | h <;> simp [h]
    · push_neg at h1
      by_cases h2 : pyLower (pyStrip ind.indicator_type) ∈ ALLOWED_INDICATOR_TYPES
      · have hmem : pyLower (pyStrip ind.indicator_type) = "ip" ∨
            pyLower (pyStrip ind.indicator_type) = "domain" ∨
            pyLower (pyStrip ind.indicator_type) = "hash" := by
          simpa [ALLOWED_INDICATOR_TYPES] using h2
        rcases hmem with h | h | h
        · rw [h] at hvf h2 ⊢
          have hvf2 : is_ip (pyStrip ind.value) = false := by
            simpa [validFor] using hvf
          simp [h1.1, h1.2, h2, hvf2]
        · rw [h] at hvf h2 ⊢
          have hvf2 : is_domain (pyStrip ind.value) = false := by
            simpa [validFor] using hvf
          simp [h1.1, h1.2, h2, hvf2]
        · rw [h] at hvf h2 ⊢
          have hvf2 : (hashKind (pyLower (pyStrip ind.value)).data).isSome = false := by
            simpa [validFor] using hvf
          cases hk : hashKind (pyLower (pyStrip ind.value)).data with
          | none => simp [h1.1, h1.2, h2, hk]
          | some alg => rw [hk] at hvf2; simp at hvf2
      · simp [h1.1, h1.2, h2]

theorem C5_witness :
    (∃ o : StixObj,
      build_indicator { indicator_type := "ip", value := "203.0.113.5" } "T" "T" "c" 0
        = .ok (some o, 1) ∧
      o.pattern = some "[ipv4-addr:value = '203.0.113.5']") ∧
    build_indicator { indicator_type := "other", value := "bogus" } "T" "T" "c" 0
      = .ok (none, 0) := by
  constructor
  · have h := C5_indicator_builder.1 { indicator_type := "ip", value := "203.0.113.5" }
      "T" "T" "c" 0 0 (by rfl) (by decide) (by decide)
    simpa using h
  · exact C5_indicator_builder.2 { indicator_type := "other", value := "bogus" }
      "T" "T" "c" 0 0 (by rfl) (by decide)

/-! ## Claim C9: the author-field parser -/

theorem dedupNonempty_eq_dedupKeep (seen : List String) (l : List String) :
    dedupNonempty seen l = dedupKeepAux seen (l.filter (fun p => !(p = ""))) := by
  induction l generalizing seen with
  | nil => simp [dedupNonempty, dedupKeepAux]
  | cons p rest ih =>
    by_cases hp : p = ""
    · simp [dedupNonempty, hp, ih]
    · by_cases hs : p ∈ seen
      · simp [dedupNonempty, hp, hs, dedupKeepAux, ih]
      · simp [dedupNonempty, hp, hs, dedupKeepAux, ih]

/-- C9 (amended).  `parse_authors` accepts an absent value (empty result),
an already-structured list (elements trimmed, empties dropped, exact
first-occurrence dedup), or a single string in which `|` and `;` are
unified to commas and each whitespace-surrounded occurrence of the word
`and` (case-insensitive) becomes a comma, after which the string is split
on commas, the tokens are trimmed, empties dropped and exact dedup
applied.  `&` is not a delimiter. -/
theorem C9_parse_authors :
    (parse_authors .absent = []) ∧
    (∀ xs, parse_authors (.list xs) =
      dedupKeep ((xs.map pyStrip).filter (fun p => !(p = "")))) ∧
    (∀ s, ¬ pyStrip s = "" →
      parse_authors (.str s) =
        dedupKeep ((((splitOnChar ','
            (subWsAndWs
              (replaceChar ';' ',' (replaceChar '|' ',' (pyStrip s))).data)).map
          (fun l => String.mk (stripData l))).filter (fun p => !(p = ""))))) ∧
    (∀ s, pyStrip s = "" → parse_authors (.str s) = []) ∧
    (parse_authors (.str "Alice & Bob") = ["Alice & Bob"]) := by
  refine ⟨rfl, ?_, ?_, ?_, by decide⟩
  · intro xs
    simp [parse_authors, dedupKeep, dedupNonempty_eq_dedupKeep]
  · intro s hs
    simp [parse_authors, hs, dedupKeep, dedupNonempty_eq_dedupKeep]
  · intro s hs
    simp [parse_authors, hs]

theorem C9_witness :
    parse_authors (.str "Bill Toulas and Jane Roe; X | Y") =
      dedupKeep (((splitOnChar ','
          (subWsAndWs
            (replaceChar ';' ',' (replaceChar '|' ','
              (pyStrip "Bill Toulas and Jane Roe; X | Y"))).data)).map
        (fun l => String.mk (stripData l))).filter (fun p => !(p = ""))) :=
  C9_parse_authors.2.2.1 "Bill Toulas and Jane Roe; X | Y" (by decide)

theorem C9_counterexample :
    parse_authors (.str "Alice & Bob") = ["Alice & Bob"] ∧
    ¬ parse_authors (.str "Alice & Bob") = ["Alice", "Bob"] := by
  constructor
  · decide
  · decide

/-! ## Claim C6: relationship endpoints must resolve within the article -/

/-- C6.  The relationship loop ignores records with an unresolved endpoint
entirely (processing a record list equals processing its resolvable
sublist), and every object the loop adds is a Relationship whose
`source_ref` and `target_ref` both come from lookups in the per-article
id map — an unresolved record never creates an object, and no manifest
entry is written for it (the loop does not touch the manifest). -/
theorem C6_relationship_endpoints (ctx : BuildCtx)
    (idMap : List ((String × String) × String)) (recs : List RelRec) (st : BuildSt)
    (ids : List String) (seen : List (String × String × String)) :
    (processRels ctx idMap recs st ids seen =
      processRels ctx idMap (recs.filter (relResolvable idMap)) st ids seen) ∧
    (∀ o ∈ (processRels ctx idMap recs st ids seen).1.objects,
      o ∈ st.objects ∨
      (o.type = "relationship" ∧
        ∃ sKey tKey sv tv,
          alistLookup idMap sKey = some sv ∧ alistLookup idMap tKey = some tv ∧
          o.source_ref = some sv ∧ o.target_ref = some tv)) := by
  induction recs generalizing st ids seen with
  | nil => exact ⟨rfl, fun o ho => Or.inl ho⟩
  | cons r rest ih =>
    by_cases h1 : (pyStrip r.source_name = "" ∨ pyStrip r.source_stix_type = "" ∨
        pyStrip r.target_name = "" ∨ pyStrip r.target_stix_type = "")
    · have hcond : (pyStrip r.source_name = "" || pyStrip r.source_stix_type = "" ||
          pyStrip r.target_name = "" || pyStrip r.target_stix_type = "") = true := by
        rcases h1 with h | h | h | h <;> simp [h]
      have hr : relResolvable idMap r = false := by
        rcases h1 with h | h | h | h <;> simp [relResolvable, h]
      constructor
      · rw [List.filter_cons_of_neg (by simp [hr])]
        simp only [processRels, hcond, if_true]
        exact (ih st ids seen).1
      · intro o ho
        rw [show processRels ctx idMap (r :: rest) st ids seen =
            processRels ctx idMap rest st ids seen by
          simp only [processRels, hcond, if_true]] at ho
        exact (ih st ids seen).2 o ho
    · push_neg at h1
      obtain ⟨hs1, hs2, hs3, hs4⟩ := h1
      have hcond : (pyStrip r.source_name = "" || pyStrip r.source_stix_type = "" ||
          pyStrip r.target_name = "" || pyStrip r.target_stix_type = "") = false := by
        simp [hs1, hs2, hs3, hs4]
      cases hsl : alistLookup idMap (pyStrip r.source_stix_type, pyStrip r.source_name) with
      | none =>
        have hr : relResolvable idMap r = false := by
          simp [relResolvable, hsl]
        constructor
        · rw [List.filter_cons_of_neg (by simp [hr])]
          simp only [processRels, hcond, Bool.false_eq_true, if_false, hsl]
          exact (ih st ids seen).1
        · intro o ho
          rw [show processRels ctx idMap (r :: rest) st ids seen =
              processRels ctx idMap rest st ids seen by
            simp only [processRels, hcond, Bool.false_eq_true, if_false, hsl]] at ho
          exact (ih st ids seen).2 o ho
      | some sv =>
        cases htl : alistLookup idMap (pyStrip r.target_stix_type, pyStrip r.target_name) with
        | none =>
          have hr : relResolvable idMap r = false := by
            simp [relResolvable, htl]
          constructor
          · rw [List.filter_cons_of_neg (by simp [hr])]
            simp only [processRels, hcond, Bool.false_eq_true, if_false, hsl, htl]
            exact (ih st ids seen).1
          · intro o ho
            rw [show processRels ctx idMap (r :: rest) st ids seen =
                processRels ctx idMap rest st ids seen by
              simp only [processRels, hcond, Bool.false_eq_true, if_false, hsl, htl]] at ho
            exact (ih st ids seen).2 o ho
        | some tv =>
          have hr : relResolvable idMap r = true := by
            simp [relResolvable, hs1, hs2, hs3, hs4, hsl, htl]
          constructor
          · rw [List.filter_cons_of_pos hr]
            simp only [processRels, hcond, Bool.false_eq_true, if_false, hsl, htl]
            by_cases hseen : (sv, (if r.relationship_type = "" then "related-to"
                else pyStrip r.relationship_type), tv) ∈ seen
            · rw [if_pos hseen, if_pos hseen]
              exact (ih st ids seen).1
            · rw [if_neg hseen, if_neg hseen]
              exact (ih _ _ _).1
          · intro o ho
            simp only [processRels, hcond, Bool.false_eq_true, if_false, hsl, htl] at ho
            by_cases hseen : (sv, (if r.relationship_type = "" then "related-to"
                else pyStrip r.relationship_type), tv) ∈ seen
            · rw [if_pos hseen] at ho
              exact (ih st ids seen).2 o ho
            · rw [if_neg hseen] at ho
              rcases (ih _ _ _).2 o ho with hin | hshape
              · simp only [List.mem_append] at hin
                rcases hin with h | h
                · exact Or.inl h
                · have heq : o = (build_relationship
                      (if r.relationship_type = "" then "related-to"
                        else pyStrip r.relationship_type) sv tv
                      ctx.created ctx.modified ctx.creator_id 0 st.counter).1 := by
                    simpa using h
                  subst heq
                  exact Or.inr ⟨rfl, (pyStrip r.source_stix_type, pyStrip r.source_name),
                    (pyStrip r.target_stix_type, pyStrip r.target_name), sv, tv,
                    hsl, htl, rfl, rfl⟩
              · exact Or.inr hshape

theorem C6_witness :
    (processRels {} c6IdMap [c6Rec] {} [] [] =
      processRels {} c6IdMap ([c6Rec].filter (relResolvable c6IdMap)) {} [] []) ∧
    ∀ o ∈ (processRels {} c6IdMap [c6Rec] {} [] []).1.objects,
      o ∈ BuildSt.objects {} ∨
      (o.type = "relationship" ∧
        ∃ sKey tKey sv tv,
          alistLookup c6IdMap sKey = some sv ∧ alistLookup c6IdMap tKey = some tv ∧
          o.source_ref = some sv ∧ o.target_ref = some tv) :=
  ⟨(C6_relationship_endpoints {} c6IdMap [c6Rec] {} [] []).1,
   (C6_relationship_endpoints {} c6IdMap [c6Rec] {} [] []).2⟩

/-! ## Claim C7: author attribution edges -/

theorem authorStep_acc (created modified creator_id publisher_name report_id publisher_id :
    String) (authors : List String) (amap : List ((String × String) × String)) (n : Nat)
    (accObjs : List StixObj) (accRefs : List String) :
    authorStep created modified creator_id publisher_name report_id publisher_id
      authors amap n accObjs accRefs =
    ((authorStep created modified creator_id publisher_name report_id publisher_id
        authors amap n [] []).1,
     (authorStep created modified creator_id publisher_name report_id publisher_id
        authors amap n [] []).2.1,
     accObjs ++ (authorStep created modified creator_id publisher_name report_id publisher_id
        authors amap n [] []).2.2.1,
     accRefs ++ (authorStep created modified creator_id publisher_name report_id publisher_id
        authors amap n [] []).2.2.2) := by
  induction authors generalizing amap n accObjs accRefs with
  | nil => simp [authorStep]
  | cons a rest ih =>
    simp only [authorStep, get_or_create_author_id]
    cases hl : alistLookup amap ((if pyStrip publisher_name = "" then "Unknown Publisher"
        else pyStrip publisher_name), normalize_author_key a) with
    | some i =>
      simp only [hl]
      rw [ih]
      conv_rhs => rw [ih]
      simp
    | none =>
      simp only [hl]
      rw [ih]
      conv_rhs => rw [ih]
      simp

theorem build_relationship_snd (rt src t c m cb : String) (cf : Int) (n : Nat) :
    (build_relationship rt src t c m cb cf n).2 = n + 1 := rfl

theorem build_relationship_type (rt src t c m cb : String) (cf : Int) (n : Nat) :
    (build_relationship rt src t c m cb cf n).1.type = "relationship" := rfl

theorem build_relationship_rtype (rt src t c m cb : String) (cf : Int) (n : Nat) :
    (build_relationship rt src t c m cb cf n).1.relationship_type = some rt := rfl

theorem build_relationship_source (rt src t c m cb : String) (cf : Int) (n : Nat) :
    (build_relationship rt src t c m cb cf n).1.source_ref = some src := rfl

theorem build_relationship_target (rt src t c m cb : String) (cf : Int) (n : Nat) :
    (build_relationship rt src t c m cb cf n).1.target_ref = some t := rfl

theorem build_relationship_conf (rt src t c m cb : String) (cf : Int) (n : Nat) :
    (build_relationship rt src t c m cb cf n).1.confidence =
      (if cf = 0 then none else some cf) := rfl

theorem build_relationship_id (rt src t c m cb : String) (cf : Int) (n : Nat) :
    (build_relationship rt src t c m cb cf n).1.id = mkId "relationship" n := rfl

theorem make_author_identity_snd (a c m cb : String) (n : Nat) :
    (make_author_identity a c m cb n).2 = n + 1 := rfl

theorem make_author_identity_type (a c m cb : String) (n : Nat) :
    (make_author_identity a c m cb n).1.type = "identity" := rfl

theorem make_author_identity_id (a c m cb : String) (n : Nat) :
    (make_author_identity a c m cb n).1.id = mkId "identity" n := rfl

/-- For every parsed author name the loop emits, without consulting any
dedup set, a `created-by` edge from the Report (confidence 60) and a
`related-to` edge to the Publisher (confidence 40): exactly two
relationship objects per author occurrence are appended, every appended
relationship has one of those two shapes, and the appended `object_refs`
entries are exactly the ids of those relationship objects (the caller
then appends them to the Report).  No run-wide relationship-key set
exists in the build pass, so repeated (source, type, target) author edges
are emitted repeatedly. -/
theorem authorStep_spec (created modified creator_id publisher_name report_id
    publisher_id : String) (authors : List String)
    (amap : List ((String × String) × String)) (n : Nat) :
    ((authorStep created modified creator_id publisher_name report_id publisher_id
        authors amap n [] []).2.2.1.filter (fun o => o.type = "relationship")).length =
      2 * authors.length ∧
    (∀ o ∈ (authorStep created modified creator_id publisher_name report_id publisher_id
        authors amap n [] []).2.2.1,
      o.type = "identity" ∨
      (o.type = "relationship" ∧
        ((o.relationship_type = some "created-by" ∧ o.source_ref = some report_id ∧
          o.confidence = some 60) ∨
         (o.relationship_type = some "related-to" ∧ o.target_ref = some publisher_id ∧
          o.confidence = some 40)))) ∧
    (authorStep created modified creator_id publisher_name report_id publisher_id
        authors amap n [] []).2.2.2 =
      ((authorStep created modified creator_id publisher_name report_id publisher_id
        authors amap n [] []).2.2.1.filter
          (fun o => o.type = "relationship")).map (fun o => o.id) := by
  induction authors generalizing amap n with
  | nil => exact ⟨rfl, by simp [authorStep], rfl⟩
  | cons a rest ih =>
    simp only [authorStep, get_or_create_author_id]
    cases hl : alistLookup amap ((if pyStrip publisher_name = "" then "Unknown Publisher"
        else pyStrip publisher_name), normalize_author_key a) with
    | some i =>
      simp only [hl, List.nil_append, build_relationship_snd]
      rw [authorStep_acc]
      obtain ⟨ih1, ih2, ih3⟩ := ih amap (n + 1 + 1)
      refine ⟨?_, ?_, ?_⟩
      · simp only [List.filter_append, List.length_append, ih1, List.filter_cons,
          build_relationship_type, List.filter_nil]
        simp [Nat.mul_succ]
        omega
      · intro o ho
        simp only [List.mem_append, List.mem_cons, List.not_mem_nil, or_false] at ho
        rcases ho with (ho | ho) | ho
        · subst ho
          exact Or.inr ⟨rfl, Or.inl ⟨rfl, rfl, by simp [build_relationship_conf]⟩⟩
        · subst ho
          exact Or.inr ⟨rfl, Or.inr ⟨rfl, rfl, by simp [build_relationship_conf]⟩⟩
        · exact ih2 o ho
      · simp only [List.filter_append, List.map_append, ih3, List.filter_cons,
          build_relationship_type, List.filter_nil]
        simp
    | none =>
      simp only [hl, List.nil_append, build_relationship_snd, make_author_identity_snd]
      rw [authorStep_acc]
      obtain ⟨ih1, ih2, ih3⟩ := ih (((((if pyStrip publisher_name = "" then "Unknown Publisher"
        else pyStrip publisher_name), normalize_author_key a)),
        (make_author_identity a created modified creator_id n).1.id) :: amap) (n + 1 + 1 + 1)
      refine ⟨?_, ?_, ?_⟩
      · simp only [List.filter_append, List.length_append, ih1, List.filter_cons,
          build_relationship_type, make_author_identity_type, List.filter_nil]
        simp [Nat.mul_succ]
        omega
      · intro o ho
        simp only [List.mem_append, List.mem_cons, List.not_mem_nil, or_false] at ho
        rcases ho with (ho | ho | ho) | ho
        · subst ho
          exact Or.inl rfl
        · subst ho
          exact Or.inr ⟨rfl, Or.inl ⟨rfl, rfl, by simp [build_relationship_conf]⟩⟩
        · subst ho
          exact Or.inr ⟨rfl, Or.inr ⟨rfl, rfl, by simp [build_relationship_conf]⟩⟩
        · exact ih2 o ho
      · simp only [List.filter_append, List.map_append, ih3, List.filter_cons,
          build_relationship_type, make_author_identity_type, List.filter_nil]
        simp

/-- C7 (amended): see `authorStep_spec` for the statement; the claim
theorem packages it. -/
theorem C7_author_edges (created modified creator_id publisher_name report_id
    publisher_id : String) (authors : List String)
    (amap : List ((String × String) × String)) (n : Nat) :
    ((authorStep created modified creator_id publisher_name report_id publisher_id
        authors amap n [] []).2.2.1.filter (fun o => o.type = "relationship")).length =
      2 * authors.length ∧
    (∀ o ∈ (authorStep created modified creator_id publisher_name report_id publisher_id
        authors amap n [] []).2.2.1,
      o.type = "identity" ∨
      (o.type = "relationship" ∧
        ((o.relationship_type = some "created-by" ∧ o.source_ref = some report_id ∧
          o.confidence = some 60) ∨
         (o.relationship_type = some "related-to" ∧ o.target_ref = some publisher_id ∧
          o.confidence = some 40)))) ∧
    (authorStep created modified creator_id publisher_name report_id publisher_id
        authors amap n [] []).2.2.2 =
      ((authorStep created modified creator_id publisher_name report_id publisher_id
        authors amap n [] []).2.2.1.filter
          (fun o => o.type = "relationship")).map (fun o => o.id) :=
  authorStep_spec created modified creator_id publisher_name report_id publisher_id
    authors amap n

theorem C7_witness :
    ((authorStep "T" "T" "c" "P" "r1" "p1" ["Bill", "Bill"] [] 0 [] []).2.2.1.filter
        (fun o => o.type = "relationship")).length = 2 * 2 ∧
    (authorStep "T" "T" "c" "P" "r1" "p1" ["Bill", "Bill"] [] 0 [] []).2.2.2 =
      ((authorStep "T" "T" "c" "P" "r1" "p1" ["Bill", "Bill"] [] 0 [] []).2.2.1.filter
        (fun o => o.type = "relationship")).map (fun o => o.id) :=
  ⟨(C7_author_edges "T" "T" "c" "P" "r1" "p1" ["Bill", "Bill"] [] 0).1,
   (C7_author_edges "T" "T" "c" "P" "r1" "p1" ["Bill", "Bill"] [] 0).2.2⟩

theorem C7_counterexample :
    ((bundleObjectsOf (buildBundle c7Items [] [] "T")).filterMap relTriple).filter
        (fun t => t.2.1 = "related-to") =
      [("uuuuuu#identity", "related-to", "uu#identity"),
       ("uuuuuu#identity", "related-to", "uu#identity")] ∧
    ¬ (((bundleObjectsOf (buildBundle c7Items [] [] "T")).filterMap relTriple).filter
        (fun t => t.2.1 = "related-to")).Nodup := by
  constructor
  · decide
  · decide

/-! ## Build-phase helper lemmas (manifest, registries, object growth) -/

theorem build_indicator_conf_ok {ind : IndRec} {c m cb : String} {n : Nat}
    {r : Option StixObj × Nat} (h : build_indicator ind c m cb n = .ok r) :
    ∃ cv, pyIntOr0 ind.confidence = .ok cv := by
  unfold build_indicator at h
  cases hc : pyIntOr0 ind.confidence with
  | error e => rw [hc] at h; simp at h
  | ok cv => exact ⟨cv, rfl⟩

theorem build_indicator_none_of_invalid (ind : IndRec) (c m cb : String) (n : Nat)
    (cv : Int) (hconf : pyIntOr0 ind.confidence = .ok cv)
    (hvf : validFor (pyLower (pyStrip ind.indicator_type)) (pyStrip ind.value) = false) :
    build_indicator ind c m cb n = .ok (none, n) := by
  simp only [build_indicator, hconf]
  by_cases h1 : (pyLower (pyStrip ind.indicator_type) = "" ∨ pyStrip ind.value = "")
  · rcases h1 with h | h <;> simp [h]
  · push_neg at h1
    by_cases h2 : pyLower (pyStrip ind.indicator_type) ∈ ALLOWED_INDICATOR_TYPES
    · have hmem : pyLower (pyStrip ind.indicator_type) = "ip" ∨
          pyLower (pyStrip ind.indicator_type) = "domain" ∨
          pyLower (pyStrip ind.indicator_type) = "hash" := by
        simpa [ALLOWED_INDICATOR_TYPES] using h2
      rcases hmem with h | h | h
      · rw [h] at hvf h2 ⊢
        have hvf2 : is_ip (pyStrip ind.value) = false := by
          simpa [validFor] using hvf
        simp [h1.1, h1.2, h2, hvf2]
      · rw [h] at hvf h2 ⊢
        have hvf2 : is_domain (pyStrip ind.value) = false := by
          simpa [validFor] using hvf
        simp [h1.1, h1.2, h2, hvf2]
      · rw [h] at hvf h2 ⊢
        have hvf2 : (hashKind (pyLower (pyStrip ind.value)).data).isSome = false := by
          simpa [validFor] using hvf
        cases hk : hashKind (pyLower (pyStrip ind.value)).data with
        | none => simp [h1.1, h1.2, h2, hk]
        | some alg => rw [hk] at hvf2; simp at hvf2
    · simp [h1.1, h1.2, h2]

theorem validFor_value_ne_empty {t v : String} (h : validFor t v = true) : ¬ v = "" := by
  intro he
  subst he
  by_cases h1 : t = "ip"
  · rw [h1] at h
    simp only [validFor, if_pos rfl] at h
    simp [is_ip, isIPv4, isIPv4Data, splitOnChar, splitOnCharAux, isIPv6,
      splitOnFirstChar, isIPv6Data] at h
  · by_cases h2 : t = "domain"
    · rw [h2] at h
      simp only [validFor, if_true] at h
      simp [is_domain, pyStrip, pyLower, stripData] at h
    · by_cases h3 : t = "hash"
      · rw [h3] at h
        simp only [validFor, if_true] at h
        simp [pyLower, hashKind] at h
      · simp [validFor, h1, h2, h3] at h

theorem validFor_type_mem {t v : String} (h : validFor t v = true) :
    t ∈ ALLOWED_INDICATOR_TYPES := by
  by_cases h1 : t = "ip"
  · simp [ALLOWED_INDICATOR_TYPES, h1]
  · by_cases h2 : t = "domain"
    · simp [ALLOWED_INDICATOR_TYPES, h2]
    · by_cases h3 : t = "hash"
      · simp [ALLOWED_INDICATOR_TYPES, h3]
      · simp [validFor, h1, h2, h3] at h

theorem build_indicator_some_of_valid (ind : IndRec) (c m cb : String) (n : Nat)
    (cv : Int) (hconf : pyIntOr0 ind.confidence = .ok cv)
    (hvf : validFor (pyLower (pyStrip ind.indicator_type)) (pyStrip ind.value) = true) :
    ∃ o, build_indicator ind c m cb n = .ok (some o, n + 1) ∧
      o.object_refs = none ∧ o.id = mkId "indicator" n := by
  have hv : ¬ pyStrip ind.value = "" := validFor_value_ne_empty hvf
  have hmem := validFor_type_mem hvf
  have ht : ¬ pyLower (pyStrip ind.indicator_type) = "" := by
    intro he
    rw [he] at hmem
    simp [ALLOWED_INDICATOR_TYPES] at hmem
  simp only [build_indicator, hconf]
  have hmem2 : pyLower (pyStrip ind.indicator_type) = "ip" ∨
      pyLower (pyStrip ind.indicator_type) = "domain" ∨
      pyLower (pyStrip ind.indicator_type) = "hash" := by
    simpa [ALLOWED_INDICATOR_TYPES] using hmem
  rcases hmem2 with h | h | h
  · rw [h] at hvf hmem ⊢
    have hip : is_ip (pyStrip ind.value) = true := by simpa [validFor] using hvf
    by_cases h4 : isIPv4 (pyStrip ind.value) = true
    · simp [ht, hv, hmem, hip, h4, h]
    · simp [ht, hv, hmem, hip, h4, h]
  · rw [h] at hvf hmem ⊢
    have hdom : is_domain (pyStrip ind.value) = true := by
      simpa [validFor] using hvf
    simp [ht, hv, hmem, hdom, h]
  · rw [h] at hvf hmem ⊢
    have hhk : (hashKind (pyLower (pyStrip ind.value)).data).isSome = true := by
      simpa [validFor] using hvf
    cases hk : hashKind (pyLower (pyStrip ind.value)).data with
    | none => rw [hk] at hhk; simp at hhk
    | some alg => simp [ht, hv, hmem, hk, h]

theorem alistLookup_mem_range {K : Type} [DecidableEq K] {m : List (K × String)} {k : K}
    {v : String} (h : alistLookup m k = some v) : v ∈ mapRange m := by
  induction m with
  | nil => simp [alistLookup] at h
  | cons kv rest ih =>
    rw [alistLookup] at h
    by_cases hk : k = kv.1
    · rw [if_pos hk] at h
      simp [mapRange]
      exact Or.inl (by injection h with h2; exact h2.symm)
    · rw [if_neg hk] at h
      simp [mapRange]
      exact Or.inr (by simpa [mapRange] using ih h)

theorem dictInsert_range {K : Type} [DecidableEq K] {m : List (K × String)} {k : K}
    {v w : String} (h : w ∈ mapRange (dictInsert m k v)) : w = v ∨ w ∈ mapRange m := by
  unfold dictInsert at h
  by_cases hs : (alistLookup m k).isSome
  · rw [if_pos hs] at h
    simp only [mapRange, List.map_map, List.mem_map, Function.comp] at h
    obtain ⟨kv, hkv, he⟩ := h
    by_cases he2 : kv.1 = k
    · rw [if_pos he2] at he
      exact Or.inl he.symm
    · rw [if_neg he2] at he
      refine Or.inr ?_
      simp only [mapRange, List.mem_map]
      exact ⟨kv, hkv, he⟩
  · rw [if_neg hs] at h
    simp only [mapRange, List.map_append, List.mem_append] at h
    rcases h with h | h
    · exact Or.inr (by simpa [mapRange] using h)
    · simp at h
      exact Or.inl h

theorem get_or_create_publisher_id_spec (c m p : String) (st : BuildSt) :
    (get_or_create_publisher_id c m p st).2.manifest = st.manifest ∧
    (get_or_create_publisher_id c m p st).2.sdo_ids = st.sdo_ids ∧
    (get_or_create_publisher_id c m p st).2.ind_ids = st.ind_ids ∧
    (get_or_create_publisher_id c m p st).2.author_ids = st.author_ids ∧
    (∃ tail, (get_or_create_publisher_id c m p st).2.objects = st.objects ++ tail ∧
      ∀ o ∈ tail, o.object_refs = none) ∧
    ((∀ v ∈ mapRange st.publisher_ids, v ∈ idsOf st.objects) →
      ((∀ v ∈ mapRange (get_or_create_publisher_id c m p st).2.publisher_ids,
          v ∈ idsOf (get_or_create_publisher_id c m p st).2.objects) ∧
        (get_or_create_publisher_id c m p st).1 ∈
          idsOf (get_or_create_publisher_id c m p st).2.objects)) := by
  simp only [get_or_create_publisher_id]
  cases hl : alistLookup st.publisher_ids
      (if pyStrip p = "" then "Unknown Publisher" else pyStrip p) with
  | some i =>
    refine ⟨rfl, rfl, rfl, rfl, ⟨[], by simp⟩, ?_⟩
    intro hr
    exact ⟨hr, hr i (alistLookup_mem_range hl)⟩
  | none =>
    refine ⟨rfl, rfl, rfl, rfl, ⟨[_], rfl, ?_⟩, ?_⟩
    · intro o ho
      simp at ho
      subst ho
      rfl
    · intro hr
      constructor
      · intro v hv
        simp only [mapRange, List.map_cons, List.mem_cons] at hv
        rcases hv with hv | hv
        · subst hv
          simp [idsOf]
        · have := hr v (by simpa [mapRange] using hv)
          simp only [idsOf, List.map_append, List.mem_append]
          exact Or.inl (by simpa [idsOf] using this)
      · simp [idsOf]

theorem stix_object_from_extracted_ok {obj : ObjRec} {c m cb : String} {n : Nat}
    {p : StixObj × Nat} (h : stix_object_from_extracted obj c m cb n = .ok p) :
    p.1.object_refs = none ∧ p.1.id = mkId (pyStrip obj.stix_type) n ∧ p.2 = n + 1 := by
  unfold stix_object_from_extracted at h
  cases hc : pyIntOr0 obj.confidence with
  | error e => rw [hc] at h; simp at h
  | ok cv =>
    rw [hc] at h
    simp only [Except.ok.injEq] at h
    rw [← h]
    exact ⟨rfl, rfl, rfl⟩

theorem build_indicator_valid_of_some {ind : IndRec} {c m cb : String} {n : Nat}
    {o : StixObj} {n2 : Nat} (h : build_indicator ind c m cb n = .ok (some o, n2)) :
    validFor (pyLower (pyStrip ind.indicator_type)) (pyStrip ind.value) = true := by
  obtain ⟨cv, hconf⟩ := build_indicator_conf_ok h
  by_contra hfalse
  have hvf : validFor (pyLower (pyStrip ind.indicator_type)) (pyStrip ind.value) = false := by
    simpa using hfalse
  have h2 := build_indicator_none_of_invalid ind c m cb n cv hconf hvf
  rw [h] at h2
  simp at h2

theorem build_indicator_invalid_of_none {ind : IndRec} {c m cb : String} {n : Nat}
    {n2 : Nat} (h : build_indicator ind c m cb n = .ok (none, n2)) :
    validFor (pyLower (pyStrip ind.indicator_type)) (pyStrip ind.value) = false := by
  obtain ⟨cv, hconf⟩ := build_indicator_conf_ok h
  by_contra htrue
  have hvf : validFor (pyLower (pyStrip ind.indicator_type)) (pyStrip ind.value) = true := by
    simpa using htrue
  obtain ⟨o, h2, h3, h4⟩ := build_indicator_some_of_valid ind c m cb n cv hconf hvf
  rw [h] at h2
  simp at h2

theorem processSdos_spec (ctx : BuildCtx) (recs : List ObjRec) :
    ∀ (st : BuildSt) (idMap : List ((String × String) × String)) (st2 : BuildSt)
      (idMap2 : List ((String × String) × String)),
      processSdos ctx recs st idMap = .ok (st2, idMap2) →
      st2.manifest = st.manifest ∧
      st2.ind_ids = st.ind_ids ∧
      st2.publisher_ids = st.publisher_ids ∧
      st2.author_ids = st.author_ids ∧
      (∃ tail, st2.objects = st.objects ++ tail ∧ ∀ o ∈ tail, o.object_refs = none) ∧
      ((∀ v ∈ mapRange st.sdo_ids, v ∈ idsOf st.objects) →
        (∀ v ∈ mapRange idMap, v ∈ idsOf st.objects) →
        ((∀ v ∈ mapRange st2.sdo_ids, v ∈ idsOf st2.objects) ∧
         (∀ v ∈ mapRange idMap2, v ∈ idsOf st2.objects))) := by
  induction recs with
  | nil =>
    intro st idMap st2 idMap2 h
    simp only [processSdos, Except.ok.injEq, Prod.mk.injEq] at h
    obtain ⟨h1, h2⟩ := h
    subst h1; subst h2
    exact ⟨rfl, rfl, rfl, rfl, ⟨[], by simp⟩, fun a b => ⟨a, b⟩⟩
  | cons obj rest ih =>
    intro st idMap st2 idMap2 h
    simp only [processSdos] at h
    by_cases hempty : (pyStrip obj.stix_type = "" || pyStrip obj.name = "") = true
    · rw [if_pos hempty] at h
      exact ih st idMap st2 idMap2 h
    · rw [if_neg (by simpa using hempty)] at h
      cases hl : alistLookup st.sdo_ids (pyStrip obj.stix_type, pyStrip obj.name) with
      | some i =>
        rw [hl] at h
        obtain ⟨m1, m2, m3, m4, ⟨tail, ht, htr⟩, hrange⟩ :=
          ih st (dictInsert idMap (pyStrip obj.stix_type, pyStrip obj.name) i) st2 idMap2 h
        refine ⟨m1, m2, m3, m4, ⟨tail, ht, htr⟩, ?_⟩
        intro hs hm
        refine hrange hs ?_
        intro v hv
        rcases dictInsert_range hv with hv | hv
        · subst hv
          exact hs v (alistLookup_mem_range hl)
        · exact hm v hv
      | none =>
        rw [hl] at h
        cases hso : stix_object_from_extracted obj ctx.created ctx.modified
            ctx.creator_id st.counter with
        | error e => rw [hso] at h; simp at h
        | ok on2 =>
          rw [hso] at h
          obtain ⟨hrefs, hid, hcnt⟩ := stix_object_from_extracted_ok hso
          obtain ⟨m1, m2, m3, m4, ⟨tail, ht, htr⟩, hrange⟩ := ih _ _ st2 idMap2 h
          simp only at m1 m2 m3 m4 ht
          refine ⟨m1, m2, m3, m4, ⟨on2.1 :: tail, ?_, ?_⟩, ?_⟩
          · rw [ht]; simp
          · intro o ho
            rcases List.mem_cons.mp ho with ho | ho
            · subst ho; exact hrefs
            · exact htr o ho
          · intro hs hm
            have hidmem : on2.1.id ∈ idsOf (st.objects ++ [on2.1]) := by
              simp [idsOf]
            refine hrange ?_ ?_
            · intro v hv
              simp only [mapRange, List.map_cons, List.mem_cons] at hv
              rcases hv with hv | hv
              · subst hv; exact hidmem
              · have hv2 := hs v (by simpa [mapRange] using hv)
                simp only [idsOf, List.map_append, List.mem_append]
                exact Or.inl (by simpa [idsOf] using hv2)
            · intro v hv
              rcases dictInsert_range hv with hv | hv
              · subst hv; exact hidmem
              · have hv2 := hm v hv
                simp only [idsOf, List.map_append, List.mem_append]
                exact Or.inl (by simpa [idsOf] using hv2)

theorem processIndicators_spec (ctx : BuildCtx) (recs : List IndRec) :
    ∀ (st : BuildSt) (ids : List String) (skipped : List SkippedIndicator)
      (st2 : BuildSt) (ids2 : List String) (skipped2 : List SkippedIndicator),
      processIndicators ctx recs st ids skipped = .ok (st2, ids2, skipped2) →
      st2.manifest = st.manifest ∧
      st2.sdo_ids = st.sdo_ids ∧
      st2.publisher_ids = st.publisher_ids ∧
      st2.author_ids = st.author_ids ∧
      (∃ tail, st2.objects = st.objects ++ tail ∧ ∀ o ∈ tail, o.object_refs = none) ∧
      skipped2 = skipped ++ recs.filterMap rejectEntry ∧
      ((∀ v ∈ mapRange st.ind_ids, v ∈ idsOf st.objects) →
        (∀ v ∈ ids, v ∈ idsOf st.objects) →
        ((∀ v ∈ mapRange st2.ind_ids, v ∈ idsOf st2.objects) ∧
         (∀ v ∈ ids2, v ∈ idsOf st2.objects))) := by
  induction recs with
  | nil =>
    intro st ids skipped st2 ids2 skipped2 h
    simp only [processIndicators, Except.ok.injEq, Prod.mk.injEq] at h
    obtain ⟨h1, h2, h3⟩ := h
    subst h1; subst h2; subst h3
    exact ⟨rfl, rfl, rfl, rfl, ⟨[], by simp⟩, by simp, fun a b => ⟨a, b⟩⟩
  | cons ind rest ih =>
    intro st ids skipped st2 ids2 skipped2 h
    simp only [processIndicators] at h
    by_cases hempty : (pyLower (pyStrip ind.indicator_type) = "" ||
        pyStrip ind.value = "") = true
    · rw [if_pos hempty] at h
      have hrq : rejectEntry ind = none := by
        unfold rejectEntry
        rcases Bool.or_eq_true_iff.mp hempty with he | he
        · simp [of_decide_eq_true he]
        · simp [of_decide_eq_true he]
      obtain ⟨m1, m2, m3, m4, m5, m6, m7⟩ := ih st ids skipped st2 ids2 skipped2 h
      exact ⟨m1, m2, m3, m4, m5, by rw [m6]; simp [hrq], m7⟩
    · rw [if_neg (by simpa using hempty)] at h
      have hne : ¬ pyLower (pyStrip ind.indicator_type) = "" ∧ ¬ pyStrip ind.value = "" := by
        constructor <;> intro he <;> exact hempty (by simp [he])
      cases hb : build_indicator ind ctx.created ctx.modified ctx.creator_id st.counter with
      | error e => simp only [hb] at h; exact absurd h (by simp)
      | ok cn =>
        obtain ⟨cn1, cn2⟩ := cn
        simp only [hb] at h
        cases cn1 with
        | none =>
          dsimp only at h
          have hinvalid := build_indicator_invalid_of_none hb
          have hrq : rejectEntry ind =
              some { indicator_type := pyLower (pyStrip ind.indicator_type)
                     value := pyStrip ind.value
                     reason := "invalid_or_not_allowed_for_indicator" } := by
            unfold rejectEntry
            simp [hne.1, hne.2, hinvalid]
          obtain ⟨m1, m2, m3, m4, m5, m6, m7⟩ := ih _ _ _ st2 ids2 skipped2 h
          simp only at m1 m2 m3 m4 m5 m6
          refine ⟨m1, m2, m3, m4, m5, ?_, m7⟩
          rw [m6, List.filterMap_cons, hrq]
          simp
        | some c =>
          dsimp only at h
          have hvalid := build_indicator_valid_of_some hb
          have hrq : rejectEntry ind = none := by
            unfold rejectEntry
            simp [hne.1, hne.2, hvalid]
          obtain ⟨cv, hconf⟩ := build_indicator_conf_ok hb
          obtain ⟨o, ho, horefs, hoid⟩ :=
            build_indicator_some_of_valid ind ctx.created ctx.modified ctx.creator_id
              st.counter cv hconf hvalid
          have hco : c = o := by
            rw [hb] at ho
            simp only [Except.ok.injEq, Prod.mk.injEq, Option.some.injEq] at ho
            exact ho.1
          cases hl : alistLookup st.ind_ids
              (pyLower (pyStrip ind.indicator_type), pyStrip ind.value) with
          | some i =>
            rw [hl] at h
            obtain ⟨m1, m2, m3, m4, m5, m6, m7⟩ := ih _ _ _ st2 ids2 skipped2 h
            simp only at m1 m2 m3 m4 m5 m6
            refine ⟨m1, m2, m3, m4, m5, ?_, ?_⟩
            · rw [m6, List.filterMap_cons, hrq]
            · intro hs hm
              refine m7 hs ?_
              intro v hv
              rcases List.mem_append.mp hv with hv | hv
              · exact hm v hv
              · simp only [List.mem_singleton] at hv
                subst hv
                exact hs v (alistLookup_mem_range hl)
          | none =>
            rw [hl] at h
            obtain ⟨m1, m2, m3, m4, ⟨tail, ht, htr⟩, m6, m7⟩ := ih _ _ _ st2 ids2 skipped2 h
            simp only at m1 m2 m3 m4 ht m6
            have hcrefs : c.object_refs = none := by rw [hco]; exact horefs
            refine ⟨m1, m2, m3, m4, ⟨c :: tail, by rw [ht]; simp, ?_⟩, ?_, ?_⟩
            · intro o2 ho2
              rcases List.mem_cons.mp ho2 with ho2 | ho2
              · subst ho2; exact hcrefs
              · exact htr o2 ho2
            · rw [m6, List.filterMap_cons, hrq]
            · intro hs hm
              have hcid : c.id ∈ idsOf (st.objects ++ [c]) := by simp [idsOf]
              refine m7 ?_ ?_
              · intro v hv
                simp only [mapRange, List.map_cons, List.mem_cons] at hv
                rcases hv with hv | hv
                · subst hv; exact hcid
                · have hv2 := hs v (by simpa [mapRange] using hv)
                  simp only [idsOf, List.map_append, List.mem_append]
                  exact Or.inl (by simpa [idsOf] using hv2)
              · intro v hv
                rcases List.mem_append.mp hv with hv | hv
                · have hv2 := hm v hv
                  simp only [idsOf, List.map_append, List.mem_append]
                  exact Or.inl (by simpa [idsOf] using hv2)
                · simp only [List.mem_singleton] at hv
                  subst hv
                  exact hcid

theorem build_relationship_refs (rt src t c m cb : String) (cf : Int) (n : Nat) :
    (build_relationship rt src t c m cb cf n).1.object_refs = none := rfl

theorem processRels_spec (ctx : BuildCtx) (idMap : List ((String × String) × String))
    (recs : List RelRec) :
    ∀ (st : BuildSt) (ids : List String) (seen : List (String × String × String)),
      (processRels ctx idMap recs st ids seen).1.manifest = st.manifest ∧
      (processRels ctx idMap recs st ids seen).1.sdo_ids = st.sdo_ids ∧
      (processRels ctx idMap recs st ids seen).1.ind_ids = st.ind_ids ∧
      (processRels ctx idMap recs st ids seen).1.publisher_ids = st.publisher_ids ∧
      (processRels ctx idMap recs st ids seen).1.author_ids = st.author_ids ∧
      (∃ tail, (processRels ctx idMap recs st ids seen).1.objects = st.objects ++ tail ∧
        ∀ o ∈ tail, o.object_refs = none) ∧
      ((∀ v ∈ ids, v ∈ idsOf st.objects) →
        ∀ v ∈ (processRels ctx idMap recs st ids seen).2,
          v ∈ idsOf (processRels ctx idMap recs st ids seen).1.objects) := by
  induction recs with
  | nil =>
    intro st ids seen
    exact ⟨rfl, rfl, rfl, rfl, rfl, ⟨[], by simp [processRels], by simp⟩,
      fun hm v hv => by simpa [processRels, idsOf] using hm v hv⟩
  | cons r rest ih =>
    intro st ids seen
    by_cases h1 : (pyStrip r.source_name = "" || pyStrip r.source_stix_type = "" ||
        pyStrip r.target_name = "" || pyStrip r.target_stix_type = "") = true
    · rw [show processRels ctx idMap (r :: rest) st ids seen =
          processRels ctx idMap rest st ids seen by
        simp only [processRels, h1, if_true]]
      exact ih st ids seen
    · cases hsl : alistLookup idMap (pyStrip r.source_stix_type, pyStrip r.source_name) with
      | none =>
        rw [show processRels ctx idMap (r :: rest) st ids seen =
            processRels ctx idMap rest st ids seen by
          simp only [processRels, h1, Bool.false_eq_true, if_false, hsl]]
        exact ih st ids seen
      | some sv =>
        cases htl : alistLookup idMap (pyStrip r.target_stix_type, pyStrip r.target_name) with
        | none =>
          rw [show processRels ctx idMap (r :: rest) st ids seen =
              processRels ctx idMap rest st ids seen by
            simp only [processRels, h1, Bool.false_eq_true, if_false, hsl, htl]]
          exact ih st ids seen
        | some tv =>
          by_cases hseen : (sv, (if r.relationship_type = "" then "related-to"
              else pyStrip r.relationship_type), tv) ∈ seen
          · rw [show processRels ctx idMap (r :: rest) st ids seen =
                processRels ctx idMap rest st ids seen by
              simp only [processRels, h1, Bool.false_eq_true, if_false, hsl, htl]
              rw [if_pos hseen]]
            exact ih st ids seen
          · set bres := build_relationship (if r.relationship_type = "" then "related-to"
              else pyStrip r.relationship_type) sv tv ctx.created ctx.modified
              ctx.creator_id 0 st.counter with hbres
            have hstep : processRels ctx idMap (r :: rest) st ids seen =
                processRels ctx idMap rest
                  { st with objects := st.objects ++ [bres.1], counter := bres.2 }
                  (ids ++ [bres.1.id])
                  ((sv, (if r.relationship_type = "" then "related-to"
                    else pyStrip r.relationship_type), tv) :: seen) := by
              simp only [processRels, h1, Bool.false_eq_true, if_false, hsl, htl]
              rw [if_neg hseen]
            rw [hstep]
            obtain ⟨m1, m2, m3, m4, m5, ⟨tail, ht, htr⟩, m7⟩ := ih _ _ _
            refine ⟨m1, m2, m3, m4, m5, ⟨bres.1 :: tail, by rw [ht]; simp, ?_⟩, ?_⟩
            · intro o ho
              rcases List.mem_cons.mp ho with ho | ho
              · subst ho
                rw [hbres]
                exact build_relationship_refs _ _ _ _ _ _ _ _
              · exact htr o ho
            · intro hm v hv
              refine m7 ?_ v hv
              intro w hw
              rcases List.mem_append.mp hw with hw | hw
              · have hw2 := hm w hw
                simp only [idsOf, List.map_append, List.mem_append]
                exact Or.inl (by simpa [idsOf] using hw2)
              · simp only [List.mem_singleton] at hw
                subst hw
                simp [idsOf]

theorem make_author_identity_refs (a c m cb : String) (n : Nat) :
    (make_author_identity a c m cb n).1.object_refs = none := rfl

theorem authorStep_objs_refs_none (created modified creator_id publisher_name report_id
    publisher_id : String) (authors : List String) :
    ∀ (amap : List ((String × String) × String)) (n : Nat) (accObjs : List StixObj)
      (accRefs : List String),
      ∀ o ∈ (authorStep created modified creator_id publisher_name report_id publisher_id
        authors amap n accObjs accRefs).2.2.1,
        o ∈ accObjs ∨ o.object_refs = none := by
  induction authors with
  | nil =>
    intro amap n accObjs accRefs o ho
    simp only [authorStep] at ho
    exact Or.inl ho
  | cons a rest ih =>
    intro amap n accObjs accRefs o ho
    simp only [authorStep, get_or_create_author_id] at ho
    cases hl : alistLookup amap ((if pyStrip publisher_name = "" then "Unknown Publisher"
        else pyStrip publisher_name), normalize_author_key a) with
    | some i =>
      rw [hl] at ho
      rcases ih _ _ _ _ o ho with hin | hr
      · rcases List.mem_append.mp hin with hin | hin
        · exact Or.inl hin
        · simp only [List.mem_cons, List.not_mem_nil, or_false] at hin
          rcases hin with hin | hin <;>
            · subst hin
              exact Or.inr (build_relationship_refs _ _ _ _ _ _ _ _)
      · exact Or.inr hr
    | none =>
      rw [hl] at ho
      rcases ih _ _ _ _ o ho with hin | hr
      · rcases List.mem_append.mp hin with hin | hin
        · rcases List.mem_append.mp hin with hin | hin
          · exact Or.inl hin
          · simp only [List.mem_singleton] at hin
            subst hin
            exact Or.inr (make_author_identity_refs _ _ _ _ _)
        · simp only [List.mem_cons, List.not_mem_nil, or_false] at hin
          rcases hin with hin | hin <;>
            · subst hin
              exact Or.inr (build_relationship_refs _ _ _ _ _ _ _ _)
      · exact Or.inr hr

theorem authorStep_refs_resolve (created modified creator_id publisher_name report_id
    publisher_id : String) (authors : List String)
    (amap : List ((String × String) × String)) (n : Nat) :
    ∀ rid ∈ (authorStep created modified creator_id publisher_name report_id publisher_id
        authors amap n [] []).2.2.2,
      ∃ o ∈ (authorStep created modified creator_id publisher_name report_id publisher_id
        authors amap n [] []).2.2.1, o.id = rid := by
  intro rid hr
  rw [(authorStep_spec created modified creator_id publisher_name report_id publisher_id
    authors amap n).2.2] at hr
  simp only [List.mem_map] at hr
  obtain ⟨o, ho, he⟩ := hr
  exact ⟨o, List.mem_of_mem_filter ho, he⟩

theorem processItem_manifest {ctx : BuildCtx} {st : BuildSt} {it : Item} {st2 : BuildSt}
    (h : processItem ctx st it = .ok st2) :
    (st2.manifest.skipped = st.manifest.skipped ∧
      ∃ re, st2.manifest.reports = st.manifest.reports ++ [re] ∧
        re.skipped_indicators = it.indicators.filterMap rejectEntry) ∨
    (st2.manifest.reports = st.manifest.reports ∧
      ∃ e, st2.manifest.skipped = st.manifest.skipped ++ [e] ∧
        (e.reason = "skip: not ok" ∨
         e.reason = "skip: no objects/indicators/relationships")) := by
  simp only [processItem] at h
  split at h
  · simp only [Except.ok.injEq] at h
    subst h
    exact Or.inr ⟨rfl, _, rfl, Or.inl rfl⟩
  · split at h
    · exact absurd h (by simp)
    · split at h
      · exact absurd h (by simp)
      · rename_i stIdMap hsd
        split at h
        · exact absurd h (by simp)
        · rename_i stInds hinds
          obtain ⟨s1, _, _, _, _, _⟩ := processSdos_spec ctx it.objects _ _ _ _ hsd
          rw [(get_or_create_publisher_id_spec ctx.created ctx.modified _ st).1] at s1
          obtain ⟨i1, _, _, _, _, i6, _⟩ :=
            processIndicators_spec ctx it.indicators _ _ _ _ _ _ hinds
          obtain ⟨r1, _, _, _, _, _, _⟩ :=
            processRels_spec ctx stIdMap.2 it.relationships stInds.1 [] []
          have hman : (processRels ctx stIdMap.2 it.relationships
              stInds.1 [] []).1.manifest = st.manifest := by
            rw [r1, i1, s1]
          split at h
          · simp only [Except.ok.injEq] at h
            subst h
            right
            exact ⟨by simp [hman], _, by simp only [hman]; rfl, by exact Or.inr rfl⟩
          · simp only [Except.ok.injEq] at h
            subst h
            left
            exact ⟨by simp [hman], _, by simp only [hman]; rfl, by simpa using i6⟩

/-! ## Claim C3: error handling of the per-article loop -/

theorem buildFold_skip_reasons {ctx : BuildCtx} {items : List Item} {st st2 : BuildSt}
    (h : buildFold ctx items st = .ok st2)
    (h0 : ∀ e ∈ st.manifest.skipped,
      e.reason = "skip: not ok" ∨
      e.reason = "skip: no objects/indicators/relationships") :
    ∀ e ∈ st2.manifest.skipped,
      e.reason = "skip: not ok" ∨
      e.reason = "skip: no objects/indicators/relationships" := by
  induction items generalizing st with
  | nil =>
    simp only [buildFold, Except.ok.injEq] at h
    subst h
    exact h0
  | cons it rest ih =>
    simp only [buildFold] at h
    cases hp : processItem ctx st it with
    | error e =>
      rw [hp] at h
      exact absurd h (by simp)
    | ok st1 =>
      rw [hp] at h
      refine ih h ?_
      rcases processItem_manifest hp with ⟨hs, _⟩ | ⟨_, e, hs, hr⟩
      · rw [hs]
        exact h0
      · rw [hs]
        intro x hx
        rcases List.mem_append.mp hx with hx | hx
        · exact h0 x hx
        · simp only [List.mem_singleton] at hx
          subst hx
          exact hr

/-- C3.  The per-article loop of `main` (04, lines 467–674) has no
try/except around its body: the skipped list of a run that completes
only ever carries the two `"skip: …"` reasons, never an
`"exception: <detail>"` entry; an unexpected error while processing one
article (the `int()` of a malformed confidence or raw length) is not
caught per article but aborts the whole run. -/
theorem C3_exception_handling {items : List Item} {cleaned : List CleanedItem}
    {included : List IncRow} {created : String} {objs : List StixObj}
    {man : Manifest} {n : Nat}
    (h : buildBundle items cleaned included created = .ok (objs, man, n)) :
    ∀ e ∈ man.skipped,
      e.reason = "skip: not ok" ∨
      e.reason = "skip: no objects/indicators/relationships" := by
  simp only [buildBundle] at h
  split at h
  · exact absurd h (by simp)
  · rename_i stF hf
    simp only [Except.ok.injEq, Prod.mk.injEq] at h
    obtain ⟨-, h2, -⟩ := h
    subst h2
    exact buildFold_skip_reasons hf (by simp)

/-- C3 witness: a concrete run whose one article is skipped for a bad
retrieval status; its manifest reason is one of the two skip strings. -/
theorem C3_witness :
    (manifestOf (buildBundle [c3SkipItem] [] [] "T")).skipped.length = 1 ∧
    ∀ e ∈ (manifestOf (buildBundle [c3SkipItem] [] [] "T")).skipped,
      e.reason = "skip: not ok" ∨
      e.reason = "skip: no objects/indicators/relationships" :=
  ⟨rfl,
   @C3_exception_handling [c3SkipItem] [] [] "T"
    (bundleObjectsOf (buildBundle [c3SkipItem] [] [] "T"))
    (manifestOf (buildBundle [c3SkipItem] [] [] "T"))
    (counterOf (buildBundle [c3SkipItem] [] [] "T")) (by rfl)⟩

/-- C3 counterexample to the spec text: a malformed confidence string in
one article makes the whole run return an error — the article is not
recorded as skipped and the following good article is never processed,
although the good article alone builds fine. -/
theorem C3_counterexample :
    buildBundle [c3BadItem, c7Item "http://good"] [] [] "T" =
      .error "invalid literal for int(): boom" ∧
    isOkE (buildBundle [c7Item "http://good"] [] [] "T") = true :=
  ⟨rfl, rfl⟩

/-! ## Claim C4: rejected indicators in the manifest -/

/-- C4 (amended).  Per processed article, either the article yields a
Report and its manifest entry records every candidate the indicator
validator rejected (verbatim, as `rejectEntry` rows), or the article
yields no Report at all: then only a bare skip row is appended, the
reports list is unchanged, and the rejected candidates are recorded
nowhere — the skip branches of `main` (04, lines 539–548) do not carry a
`skipped_indicators` field. -/
theorem C4_rejected_indicators_recorded {ctx : BuildCtx} {st : BuildSt} {it : Item}
    {st2 : BuildSt} (h : processItem ctx st it = .ok st2) :
    (∃ re, st2.manifest.reports = st.manifest.reports ++ [re] ∧
        re.skipped_indicators = it.indicators.filterMap rejectEntry) ∨
    (st2.manifest.reports = st.manifest.reports ∧
     st2.manifest.skipped.length = st.manifest.skipped.length + 1) := by
  rcases processItem_manifest h with ⟨_, re, hr, hsk⟩ | ⟨hr, e, hs, _⟩
  · exact Or.inl ⟨re, hr, hsk⟩
  · exact Or.inr ⟨hr, by simp [hs]⟩

/-- C4 witness: an article with one valid and one rejected candidate
yields a Report whose manifest entry records the rejected one. -/
theorem C4_witness :
    (∃ re, (stOf (processItem tCtx {} c4MixItem)).manifest.reports =
        ({} : BuildSt).manifest.reports ++ [re] ∧
        re.skipped_indicators = c4MixItem.indicators.filterMap rejectEntry) ∨
    ((stOf (processItem tCtx {} c4MixItem)).manifest.reports =
        ({} : BuildSt).manifest.reports ∧
     (stOf (processItem tCtx {} c4MixItem)).manifest.skipped.length =
        ({} : BuildSt).manifest.skipped.length + 1) :=
  @C4_rejected_indicators_recorded tCtx {} c4MixItem
    (stOf (processItem tCtx {} c4MixItem)) (by rfl)

/-- C4 counterexample to the universal claim: an article whose only
candidate indicator is rejected produces no Report; the run records a
bare skip row and the rejected candidate survives nowhere in the
manifest, although the validator did reject it. -/
theorem C4_counterexample :
    c4Item.indicators.filterMap rejectEntry =
      [{ indicator_type := "other", value := "bogus"
         reason := "invalid_or_not_allowed_for_indicator" }] ∧
    (manifestOf (buildBundle [c4Item] [] [] "T")).reports = [] ∧
    (manifestOf (buildBundle [c4Item] [] [] "T")).skipped.map (fun e => e.reason) =
      ["skip: no objects/indicators/relationships"] :=
  ⟨rfl, rfl, rfl⟩

/-! ## Claim C10: the creator identity heads the bundle -/

theorem processItem_objs_append {ctx : BuildCtx} {st : BuildSt} {it : Item}
    {st2 : BuildSt} (h : processItem ctx st it = .ok st2) :
    ∃ tail, st2.objects = st.objects ++ tail := by
  simp only [processItem] at h
  split at h
  · simp only [Except.ok.injEq] at h
    subst h
    exact ⟨[], by simp⟩
  · split at h
    · exact absurd h (by simp)
    · split at h
      · exact absurd h (by simp)
      · rename_i stIdMap hsd
        split at h
        · exact absurd h (by simp)
        · rename_i stInds hinds
          obtain ⟨-, -, -, -, ⟨tp, hp, -⟩, -⟩ :=
            get_or_create_publisher_id_spec ctx.created ctx.modified _ st
          obtain ⟨-, -, -, -, ⟨ts, hs, -⟩, -⟩ :=
            processSdos_spec ctx it.objects _ _ _ _ hsd
          obtain ⟨-, -, -, -, ⟨ti, hi, -⟩, -, -⟩ :=
            processIndicators_spec ctx it.indicators _ _ _ _ _ _ hinds
          obtain ⟨-, -, -, -, -, ⟨tr, hr, -⟩, -⟩ :=
            processRels_spec ctx stIdMap.2 it.relationships stInds.1 [] []
          have h4 : (processRels ctx stIdMap.2 it.relationships
              stInds.1 [] []).1.objects =
              st.objects ++ (tp ++ (ts ++ (ti ++ tr))) := by
            rw [hr, hi, hs, hp]
            simp [List.append_assoc]
          split at h
          · simp only [Except.ok.injEq] at h
            subst h
            exact ⟨tp ++ (ts ++ (ti ++ tr)), h4⟩
          · simp only [Except.ok.injEq] at h
            subst h
            exact ⟨_, by
              show (processRels ctx stIdMap.2 it.relationships
                  stInds.1 [] []).1.objects ++ _ ++ _ = _
              rw [h4, List.append_assoc, List.append_assoc]⟩

theorem buildFold_objs_append {ctx : BuildCtx} {items : List Item} {st st2 : BuildSt}
    (h : buildFold ctx items st = .ok st2) :
    ∃ tail, st2.objects = st.objects ++ tail := by
  induction items generalizing st with
  | nil =>
    simp only [buildFold, Except.ok.injEq] at h
    subst h
    exact ⟨[], by simp⟩
  | cons it rest ih =>
    simp only [buildFold] at h
    cases hp : processItem ctx st it with
    | error e =>
      rw [hp] at h
      exact absurd h (by simp)
    | ok st1 =>
      rw [hp] at h
      obtain ⟨t1, h1⟩ := processItem_objs_append hp
      obtain ⟨t2, h2⟩ := ih h
      exact ⟨t1 ++ t2, by rw [h2, h1, List.append_assoc]⟩

theorem findCollectorId_cons_creator (o : StixObj) (tail : List StixObj)
    (h1 : o.type = "identity") (h2 : safeStrO o.name = CREATOR_NAME)
    (h3 : ¬ pyStrip o.id = "") :
    findCollectorId (o :: tail) = .ok (pyStrip o.id) := by
  have hp : (fun x => x.type = "identity" && decide (safeStrO x.name = CREATOR_NAME)) o
      = true := by
    simp [h1, h2]
  simp only [findCollectorId, List.find?, hp]
  rw [if_neg h3, if_neg h3]

/-- C10.  Every bundle the Report Assembler produces starts with the
pipeline creator identity (04, lines 406–417): the first object is the
`identity` named `CREATOR_NAME` with the run's first fresh id.
Consequently the enrichment pass's collector lookup (05, lines 218–231)
always succeeds on such a bundle and its fatal "No identity found in
bundle" branch is unreachable: `enrichObjects` never returns an error. -/
theorem C10_creator_heads_bundle {items : List Item} {cleaned : List CleanedItem}
    {included : List IncRow} {created : String} {objs : List StixObj}
    {man : Manifest} {n : Nat}
    (h : buildBundle items cleaned included created = .ok (objs, man, n)) :
    (∃ tail, objs =
      { type := "identity", id := mkId "identity" 0, created := created
        modified := created, name := some CREATOR_NAME
        identity_class := some CREATOR_CLASS } :: tail) ∧
    findCollectorId objs = .ok (mkId "identity" 0) ∧
    ∀ (files : String → Option String) (created2 : String) (counter : Nat),
      isOkE (enrichObjects files created2 objs counter) = true := by
  simp only [buildBundle] at h
  split at h
  · exact absurd h (by simp)
  · rename_i stF hf
    simp only [Except.ok.injEq, Prod.mk.injEq] at h
    obtain ⟨h1, -, -⟩ := h
    subst h1
    obtain ⟨tail, ht⟩ := buildFold_objs_append hf
    have ht2 : stF.objects =
        ({ type := "identity", id := mkId "identity" 0, created := created
           modified := created, name := some CREATOR_NAME
           identity_class := some CREATOR_CLASS } : StixObj) :: tail := by
      simpa using ht
    have hfind : findCollectorId stF.objects = .ok (mkId "identity" 0) := by
      rw [ht2]
      have e2 : safeStrO (some CREATOR_NAME) = CREATOR_NAME := by decide
      have e3 : ¬ pyStrip (mkId "identity" 0) = "" := by decide
      rw [findCollectorId_cons_creator _ _ rfl (by exact e2) (by exact e3)]
      rw [show pyStrip (mkId "identity" 0) = mkId "identity" 0 from by decide]
    refine ⟨⟨tail, ht2⟩, hfind, ?_⟩
    intro files created2 counter
    simp only [enrichObjects, hfind, isOkE]

/-- C10 witness: a concrete run; its bundle's head is the creator and the
collector lookup of the enrichment pass succeeds on it. -/
theorem C10_witness :
    (∃ tail, bundleObjectsOf (buildBundle c7Items [] [] "T") =
      { type := "identity", id := mkId "identity" 0, created := "T"
        modified := "T", name := some CREATOR_NAME
        identity_class := some CREATOR_CLASS } :: tail) ∧
    findCollectorId (bundleObjectsOf (buildBundle c7Items [] [] "T")) =
      .ok (mkId "identity" 0) ∧
    ∀ (files : String → Option String) (created2 : String) (counter : Nat),
      isOkE (enrichObjects files created2
        (bundleObjectsOf (buildBundle c7Items [] [] "T")) counter) = true :=
  @C10_creator_heads_bundle c7Items [] [] "T"
    (bundleObjectsOf (buildBundle c7Items [] [] "T"))
    (manifestOf (buildBundle c7Items [] [] "T"))
    (counterOf (buildBundle c7Items [] [] "T")) (by rfl)

/-! ## Claim C8: reference integrity -/

theorem idsOf_append (l1 l2 : List StixObj) : idsOf (l1 ++ l2) = idsOf l1 ++ idsOf l2 := by
  simp [idsOf]

theorem resolves_append_left {l1 : List StixObj} (l2 : List StixObj) {rid : String}
    (h : ∃ p ∈ l1, p.id = rid) : ∃ p ∈ l1 ++ l2, p.id = rid := by
  obtain ⟨p, hp, he⟩ := h
  exact ⟨p, List.mem_append_left _ hp, he⟩

theorem refsValid_append {objs tail : List StixObj} (h : refsValid objs)
    (ht : ∀ o ∈ tail, o.object_refs = none) : refsValid (objs ++ tail) := by
  intro o ho hrep rid hrid
  rcases List.mem_append.mp ho with ho | ho
  · exact resolves_append_left _ (h o ho hrep rid hrid)
  · rw [ht o ho] at hrid
    simp at hrid

theorem idsOf_set_mem {l : List StixObj} {i : Nat} {o : StixObj}
    (hid : o.id = (l.getD i {}).id) {rid : String}
    (h : ∃ p ∈ l, p.id = rid) : ∃ p ∈ l.set i o, p.id = rid := by
  obtain ⟨p, hp, he⟩ := h
  obtain ⟨j, hj, hpj⟩ := List.mem_iff_getElem.mp hp
  by_cases hij : i = j
  · subst hij
    refine ⟨o, ?_, ?_⟩
    · have hlen : i < (l.set i o).length := by simpa using hj
      exact List.mem_iff_getElem.mpr ⟨i, hlen, by simp⟩
    · rw [hid, List.getD_eq_getElem?_getD, List.getElem?_eq_getElem hj]
      simpa [hpj] using he
  · refine ⟨p, ?_, he⟩
    have hlen : j < (l.set i o).length := by simpa using hj
    refine List.mem_iff_getElem.mpr ⟨j, hlen, ?_⟩
    rw [List.getElem_set_ne hij]
    exact hpj

theorem refsValid_set_same {l : List StixObj} {i : Nat} {o : StixObj}
    (hid : o.id = (l.getD i {}).id) (hty : o.type = (l.getD i {}).type)
    (hrefs : o.object_refs = (l.getD i {}).object_refs)
    (h : refsValid l) : refsValid (l.set i o) := by
  intro p hp hrep rid hrid
  obtain ⟨j, hj, hpj⟩ := List.mem_iff_getElem.mp hp
  have hjl : j < l.length := by simpa using hj
  by_cases hij : i = j
  · subst hij
    rw [List.getElem_set_self (by simpa using hjl)] at hpj
    subst hpj
    have hmem : l.getD i {} ∈ l := by
      rw [List.getD_eq_getElem?_getD, List.getElem?_eq_getElem hjl]
      exact List.getElem_mem hjl
    have := h (l.getD i {}) hmem (by rw [← hty]; exact hrep) rid
      (by rw [← hrefs]; exact hrid)
    exact idsOf_set_mem hid this
  · rw [List.getElem_set_ne hij] at hpj
    have hpl : p ∈ l := by
      subst hpj
      exact List.getElem_mem hjl
    exact idsOf_set_mem hid (h p hpl hrep rid hrid)

theorem dropWhile_eq_self_of_head {p : Char → Bool} {l : List Char}
    (h : ∀ c ∈ l.head?, ¬ p c) : l.dropWhile p = l := by
  cases l with
  | nil => rfl
  | cons a as =>
    have ha : ¬ p a := h a rfl
    simp [List.dropWhile_cons, ha]

theorem stripData_of_ends {l : List Char}
    (h1 : ∀ c ∈ l.head?, ¬ pyIsSpace c) (h2 : ∀ c ∈ l.getLast?, ¬ pyIsSpace c) :
    stripData l = l := by
  have h3 : ∀ c ∈ l.reverse.head?, ¬ pyIsSpace c := by
    intro c hc
    rw [List.head?_reverse] at hc
    exact h2 c hc
  unfold stripData
  rw [dropWhile_eq_self_of_head h1, dropWhile_eq_self_of_head h3, List.reverse_reverse]

theorem pyStrip_mkId (t : String) (ht : ∀ c ∈ ('#' :: t.data).getLast?, ¬ pyIsSpace c)
    (n : Nat) : pyStrip (mkId t n) = mkId t n := by
  unfold pyStrip mkId
  congr 1
  apply stripData_of_ends
  · intro c hc
    have : (String.mk (List.replicate (n + 1) 'u' ++ '#' :: t.data)).data.head? = some 'u' := by
      show (List.replicate (n + 1) 'u' ++ '#' :: t.data).head? = some 'u'
      rw [List.replicate_succ]
      rfl
    rw [this] at hc
    have hcu : c = 'u' := by
      cases hc
      rfl
    subst hcu
    decide
  · intro c hc
    have : (String.mk (List.replicate (n + 1) 'u' ++ '#' :: t.data)).data.getLast? =
        ('#' :: t.data).getLast? := by
      show (List.replicate (n + 1) 'u' ++ '#' :: t.data).getLast? = ('#' :: t.data).getLast?
      exact List.getLast?_append_of_ne_nil _ (List.cons_ne_nil _ _)
    rw [this] at hc
    exact ht c hc

theorem authorStep_acc_mem (created modified creator_id publisher_name report_id
    publisher_id : String) (authors : List String) :
    ∀ (amap : List ((String × String) × String)) (n : Nat) (accObjs : List StixObj)
      (accRefs : List String),
      ∀ o ∈ accObjs,
        o ∈ (authorStep created modified creator_id publisher_name report_id publisher_id
          authors amap n accObjs accRefs).2.2.1 := by
  induction authors with
  | nil =>
    intro amap n accObjs accRefs o ho
    simpa only [authorStep] using ho
  | cons a rest ih =>
    intro amap n accObjs accRefs o ho
    simp only [authorStep, get_or_create_author_id]
    cases hl : alistLookup amap ((if pyStrip publisher_name = "" then "Unknown Publisher"
        else pyStrip publisher_name), normalize_author_key a) with
    | some i =>
      exact ih _ _ _ _ o (by
        refine List.mem_append_left _ ?_
        exact ho)
    | none =>
      exact ih _ _ _ _ o (by
        refine List.mem_append_left _ ?_
        exact List.mem_append_left _ ho)

theorem authorStep_amap_range (created modified creator_id publisher_name report_id
    publisher_id : String) (authors : List String) :
    ∀ (amap : List ((String × String) × String)) (n : Nat) (accObjs : List StixObj)
      (accRefs : List String),
      ∀ v ∈ mapRange (authorStep created modified creator_id publisher_name report_id
          publisher_id authors amap n accObjs accRefs).1,
        v ∈ mapRange amap ∨
        ∃ p ∈ (authorStep created modified creator_id publisher_name report_id publisher_id
          authors amap n accObjs accRefs).2.2.1, p.id = v := by
  induction authors with
  | nil =>
    intro amap n accObjs accRefs v hv
    simp only [authorStep] at hv ⊢
    exact Or.inl hv
  | cons a rest ih =>
    intro amap n accObjs accRefs v hv
    simp only [authorStep, get_or_create_author_id] at hv ⊢
    cases hl : alistLookup amap ((if pyStrip publisher_name = "" then "Unknown Publisher"
        else pyStrip publisher_name), normalize_author_key a) with
    | some i =>
      simp only [hl] at hv ⊢
      exact ih _ _ _ _ v hv
    | none =>
      simp only [hl] at hv ⊢
      rcases ih _ _ _ _ v hv with hin | hr
      · simp only [mapRange, List.map_cons, List.mem_cons] at hin
        rcases hin with hin | hin
        · right
          refine ⟨(make_author_identity a created modified creator_id n).1, ?_, hin.symm⟩
          apply authorStep_acc_mem
          refine List.mem_append_left _ ?_
          exact List.mem_append_right _ (by simp)
        · exact Or.inl hin
      · exact Or.inr hr

theorem mem_idsOf {objs : List StixObj} {v : String} :
    v ∈ idsOf objs ↔ ∃ p ∈ objs, p.id = v := by
  simp [idsOf, List.mem_map]

theorem build_note_type (c m cb rid u pn : String) (authors : List String)
    (rp rs : String) (rcl : Int) (rt : Bool) (n : Nat) :
    (build_note_for_author_and_raw c m cb rid u pn authors rp rs rcl rt n).1.type
      = "note" := rfl

theorem processItem_InvB {ctx : BuildCtx} {st : BuildSt} {it : Item} {st2 : BuildSt}
    (hInv : InvB st) (h : processItem ctx st it = .ok st2) : InvB st2 := by
  obtain ⟨hrv, hsdo, hind, hpub, hauth⟩ := hInv
  simp only [processItem] at h
  split at h
  · simp only [Except.ok.injEq] at h
    subst h
    exact ⟨hrv, hsdo, hind, hpub, hauth⟩
  · split at h
    · exact absurd h (by simp)
    · split at h
      · exact absurd h (by simp)
      · rename_i stIdMap hsd
        split at h
        · exact absurd h (by simp)
        · rename_i stInds hinds
          obtain ⟨gman, gsdo, gind, gauth, ⟨tp, hp, htp⟩, gimp⟩ :=
            get_or_create_publisher_id_spec ctx.created ctx.modified _ st
          obtain ⟨s1, s2, s3, s4, ⟨ts, hs, hts⟩, simp1⟩ :=
            processSdos_spec ctx it.objects _ _ _ _ hsd
          obtain ⟨i1, i2, i3, i4, ⟨ti, hi, hti⟩, i6, iimp⟩ :=
            processIndicators_spec ctx it.indicators _ _ _ _ _ _ hinds
          obtain ⟨r1, r2, r3, r4, r5, ⟨tr, hr2, htr⟩, rimp⟩ :=
            processRels_spec ctx stIdMap.2 it.relationships stInds.1 [] []
          have hrv1 : refsValid (st.objects ++ tp) := refsValid_append hrv htp
          have hrv2 : refsValid stIdMap.1.objects := by
            rw [hs, hp]
            exact refsValid_append hrv1 hts
          have hsdo1 : ∀ v ∈ mapRange stIdMap.1.sdo_ids, v ∈ idsOf stIdMap.1.objects := by
            refine (simp1 ?_ ?_).1
            · rw [gsdo, hp, idsOf_append]
              intro v hv
              exact List.mem_append_left _ (hsdo v hv)
            · intro v hv
              simp [mapRange] at hv
          have hmap1 : ∀ v ∈ mapRange stIdMap.2, v ∈ idsOf stIdMap.1.objects := by
            refine (simp1 ?_ ?_).2
            · rw [gsdo, hp, idsOf_append]
              intro v hv
              exact List.mem_append_left _ (hsdo v hv)
            · intro v hv
              simp [mapRange] at hv
          have hind1 : ∀ v ∈ mapRange stIdMap.1.ind_ids, v ∈ idsOf stIdMap.1.objects := by
            rw [s2, gind, hs, hp, idsOf_append, idsOf_append]
            intro v hv
            exact List.mem_append_left _ (List.mem_append_left _ (hind v hv))
          have hpub1 : ∀ v ∈ mapRange stIdMap.1.publisher_ids,
              v ∈ idsOf stIdMap.1.objects := by
            rw [s3, hs, idsOf_append]
            intro v hv
            exact List.mem_append_left _ ((gimp hpub).1 v hv)
          have hauth1 : ∀ v ∈ mapRange stIdMap.1.author_ids,
              v ∈ idsOf stIdMap.1.objects := by
            rw [s4, gauth, hs, hp, idsOf_append, idsOf_append]
            intro v hv
            exact List.mem_append_left _ (List.mem_append_left _ (hauth v hv))
          have hrv3 : refsValid stInds.1.objects := by
            rw [hi]
            exact refsValid_append hrv2 hti
          have hind3 : ∀ v ∈ mapRange stInds.1.ind_ids, v ∈ idsOf stInds.1.objects :=
            (iimp hind1 (by intro v hv; simp at hv)).1
          have hids3 : ∀ v ∈ stInds.2.1, v ∈ idsOf stInds.1.objects :=
            (iimp hind1 (by intro v hv; simp at hv)).2
          have hsdo3 : ∀ v ∈ mapRange stInds.1.sdo_ids, v ∈ idsOf stInds.1.objects := by
            rw [i2, hi, idsOf_append]
            intro v hv
            exact List.mem_append_left _ (hsdo1 v hv)
          have hmap3 : ∀ v ∈ mapRange stIdMap.2, v ∈ idsOf stInds.1.objects := by
            rw [hi, idsOf_append]
            intro v hv
            exact List.mem_append_left _ (hmap1 v hv)
          have hpub3 : ∀ v ∈ mapRange stInds.1.publisher_ids,
              v ∈ idsOf stInds.1.objects := by
            rw [i3, hi, idsOf_append]
            intro v hv
            exact List.mem_append_left _ (hpub1 v hv)
          have hauth3 : ∀ v ∈ mapRange stInds.1.author_ids,
              v ∈ idsOf stInds.1.objects := by
            rw [i4, hi, idsOf_append]
            intro v hv
            exact List.mem_append_left _ (hauth1 v hv)
          have hrv4 : refsValid (processRels ctx stIdMap.2 it.relationships
              stInds.1 [] []).1.objects := by
            rw [hr2]
            exact refsValid_append hrv3 htr
          have hrels4 : ∀ v ∈ (processRels ctx stIdMap.2 it.relationships
                stInds.1 [] []).2,
              v ∈ idsOf (processRels ctx stIdMap.2 it.relationships
                stInds.1 [] []).1.objects :=
            rimp (by intro v hv; simp at hv)
          have hsdo4 : ∀ v ∈ mapRange (processRels ctx stIdMap.2 it.relationships
                stInds.1 [] []).1.sdo_ids,
              v ∈ idsOf (processRels ctx stIdMap.2 it.relationships
                stInds.1 [] []).1.objects := by
            rw [r2, hr2, idsOf_append]
            intro v hv
            exact List.mem_append_left _ (hsdo3 v hv)
          have hind4 : ∀ v ∈ mapRange (processRels ctx stIdMap.2 it.relationships
                stInds.1 [] []).1.ind_ids,
              v ∈ idsOf (processRels ctx stIdMap.2 it.relationships
                stInds.1 [] []).1.objects := by
            rw [r3, hr2, idsOf_append]
            intro v hv
            exact List.mem_append_left _ (hind3 v hv)
          have hpub4 : ∀ v ∈ mapRange (processRels ctx stIdMap.2 it.relationships
                stInds.1 [] []).1.publisher_ids,
              v ∈ idsOf (processRels ctx stIdMap.2 it.relationships
                stInds.1 [] []).1.objects := by
            rw [r4, hr2, idsOf_append]
            intro v hv
            exact List.mem_append_left _ (hpub3 v hv)
          have hauth4 : ∀ v ∈ mapRange (processRels ctx stIdMap.2 it.relationships
                stInds.1 [] []).1.author_ids,
              v ∈ idsOf (processRels ctx stIdMap.2 it.relationships
                stInds.1 [] []).1.objects := by
            rw [r5, hr2, idsOf_append]
            intro v hv
            exact List.mem_append_left _ (hauth3 v hv)
          have hmap4 : ∀ v ∈ mapRange stIdMap.2,
              v ∈ idsOf (processRels ctx stIdMap.2 it.relationships
                stInds.1 [] []).1.objects := by
            rw [hr2, idsOf_append]
            intro v hv
            exact List.mem_append_left _ (hmap3 v hv)
          have hids4 : ∀ v ∈ stInds.2.1,
              v ∈ idsOf (processRels ctx stIdMap.2 it.relationships
                stInds.1 [] []).1.objects := by
            rw [hr2, idsOf_append]
            intro v hv
            exact List.mem_append_left _ (hids3 v hv)
          split at h
          · simp only [Except.ok.injEq] at h
            subst h
            exact ⟨hrv4, hsdo4, hind4, hpub4, hauth4⟩
          · simp only [Except.ok.injEq] at h
            subst h
            refine ⟨?_, ?_, ?_, ?_, ?_⟩
            · intro o ho hrep rid hrid
              rcases List.mem_append.mp ho with ho | ho
              · rcases List.mem_append.mp ho with ho | ho
                · exact resolves_append_left _ (resolves_append_left _
                    (hrv4 o ho hrep rid hrid))
                · simp only [List.mem_cons, List.not_mem_nil, or_false] at ho
                  rcases ho with ho | ho
                  · subst ho
                    dsimp only at hrid
                    simp only [Option.getD_some] at hrid
                    rcases List.mem_append.mp hrid with hrid | hrid
                    · rcases List.mem_append.mp hrid with hrid | hrid
                      · rcases List.mem_append.mp hrid with hrid | hrid
                        · rcases List.mem_append.mp hrid with hrid | hrid
                          · obtain ⟨p, hpm, hpe⟩ := mem_idsOf.mp (hmap4 rid hrid)
                            exact ⟨p, List.mem_append_left _
                              (List.mem_append_left _ hpm), hpe⟩
                          · obtain ⟨p, hpm, hpe⟩ := mem_idsOf.mp (hids4 rid hrid)
                            exact ⟨p, List.mem_append_left _
                              (List.mem_append_left _ hpm), hpe⟩
                        · obtain ⟨p, hpm, hpe⟩ := mem_idsOf.mp (hrels4 rid hrid)
                          exact ⟨p, List.mem_append_left _
                            (List.mem_append_left _ hpm), hpe⟩
                      · simp only [List.mem_singleton] at hrid
                        subst hrid
                        refine ⟨_, List.mem_append_left _
                          (List.mem_append_right _ ?_), rfl⟩
                        simp
                    · obtain ⟨p, hpm, hpe⟩ := authorStep_refs_resolve ctx.created
                        ctx.modified ctx.creator_id _ _ _ _ _ _ rid hrid
                      exact ⟨p, List.mem_append_right _ hpm, hpe⟩
                  · subst ho
                    rw [build_note_type] at hrep
                    exact absurd hrep (by decide)
              · rcases authorStep_objs_refs_none ctx.created ctx.modified ctx.creator_id
                  _ _ _ _ _ _ [] [] o ho with hin | hn
                · simp at hin
                · rw [hn] at hrid
                  simp at hrid
            · intro v hv
              rw [idsOf_append, idsOf_append]
              exact List.mem_append_left _ (List.mem_append_left _ (hsdo4 v hv))
            · intro v hv
              rw [idsOf_append, idsOf_append]
              exact List.mem_append_left _ (List.mem_append_left _ (hind4 v hv))
            · intro v hv
              rw [idsOf_append, idsOf_append]
              exact List.mem_append_left _ (List.mem_append_left _ (hpub4 v hv))
            · intro v hv
              rcases authorStep_amap_range ctx.created ctx.modified ctx.creator_id
                  _ _ _ _ _ _ [] [] v hv with hin | ⟨p, hpm, hpe⟩
              · rw [idsOf_append, idsOf_append]
                exact List.mem_append_left _ (List.mem_append_left _ (hauth4 v hin))
              · rw [idsOf_append]
                refine List.mem_append_right _ ?_
                exact mem_idsOf.mpr ⟨p, hpm, hpe⟩

theorem buildFold_InvB {ctx : BuildCtx} {items : List Item} {st st2 : BuildSt}
    (h : buildFold ctx items st = .ok st2) (hInv : InvB st) : InvB st2 := by
  induction items generalizing st with
  | nil =>
    simp only [buildFold, Except.ok.injEq] at h
    subst h
    exact hInv
  | cons it rest ih =>
    simp only [buildFold] at h
    cases hp : processItem ctx st it with
    | error e =>
      rw [hp] at h
      exact absurd h (by simp)
    | ok st1 =>
      rw [hp] at h
      exact ih h (processItem_InvB hInv hp)

theorem StepOK_refl (objs : List StixObj) (refs : List String) : StepOK objs objs refs refs :=
  ⟨⟨[], by simp, by simp⟩, fun r hr => Or.inl hr⟩

theorem StepOK_trans {a b c : List StixObj} {r1 r2 r3 : List String}
    (h1 : StepOK a b r1 r2) (h2 : StepOK b c r2 r3) : StepOK a c r1 r3 := by
  obtain ⟨⟨t1, ho1, hn1⟩, hr1⟩ := h1
  obtain ⟨⟨t2, ho2, hn2⟩, hr2⟩ := h2
  refine ⟨⟨t1 ++ t2, by rw [ho2, ho1, List.append_assoc], ?_⟩, ?_⟩
  · intro o ho
    rcases List.mem_append.mp ho with ho | ho
    · exact hn1 o ho
    · exact hn2 o ho
  · intro r hr
    rcases hr2 r hr with hr | ⟨p, hp, he⟩
    · rcases hr1 r hr with hr | ⟨p, hp, he⟩
      · exact Or.inl hr
      · exact Or.inr ⟨p, by rw [ho2]; exact List.mem_append_left _ hp, he⟩
    · exact Or.inr ⟨p, hp, he⟩

theorem StepOK_append_reffree (objs : List StixObj) (refs : List String) (o : StixObj)
    (ho : o.object_refs = none) :
    StepOK objs (objs ++ [o]) refs refs :=
  ⟨⟨[o], rfl, by simpa using ho⟩, fun r hr => Or.inl hr⟩

theorem StepOK_append_rel (objs : List StixObj) (refs : List String)
    (rt src tgt c m cb : String) (cf : Int) (n : Nat) :
    StepOK objs (objs ++ [(build_relationship rt src tgt c m cb cf n).1]) refs
      (refs ++ [pyStrip (build_relationship rt src tgt c m cb cf n).1.id]) := by
  refine ⟨⟨[(build_relationship rt src tgt c m cb cf n).1], rfl,
    by simp [build_relationship_refs]⟩, ?_⟩
  intro r hr
  rcases List.mem_append.mp hr with hr | hr
  · exact Or.inl hr
  · simp only [List.mem_singleton] at hr
    subst hr
    refine Or.inr ⟨(build_relationship rt src tgt c m cb cf n).1,
      List.mem_append_right _ (by simp), ?_⟩
    rw [build_relationship_id]
    exact (pyStrip_mkId "relationship" (by decide) n).symm

theorem enrichAuthors_spec (created collector_id rep_id publisher_id : String)
    (authors : List String) :
    ∀ (st : EnSt) (newRefs : List String),
      StepOK st.objs
        (enrichAuthors created collector_id rep_id publisher_id authors st newRefs).1.objs
        newRefs
        (enrichAuthors created collector_id rep_id publisher_id authors st newRefs).2 := by
  induction authors with
  | nil =>
    intro st newRefs
    simp only [enrichAuthors]
    exact StepOK_refl st.objs newRefs
  | cons a rest ih =>
    intro st newRefs
    simp only [enrichAuthors]
    split
    · exact ih st newRefs
    · cases hl : alistLookup st.amap (normalize_author_key a) with
      | some i =>
        simp only [hl]
        by_cases hc1 : ((rep_id, "created-by", i) ∈ st.relKeys)
        · rw [if_pos hc1]
          by_cases hp0 : publisher_id = ""
          · rw [if_pos hp0]
            exact ih st newRefs
          · rw [if_neg hp0]
            by_cases hc2 : ((i, "related-to", publisher_id) ∈ st.relKeys)
            · rw [if_pos hc2]
              exact ih st newRefs
            · rw [if_neg hc2]
              exact StepOK_trans (StepOK_append_rel st.objs newRefs "related-to" i
                publisher_id created created collector_id 40 st.counter) (ih _ _)
        · rw [if_neg hc1]
          by_cases hp0 : publisher_id = ""
          · rw [if_pos hp0]
            exact StepOK_trans (StepOK_append_rel st.objs newRefs "created-by" rep_id i
              created created collector_id 60 st.counter) (ih _ _)
          · rw [if_neg hp0]
            by_cases hc2 : ((i, "related-to", publisher_id) ∈
                (rep_id, "created-by", i) :: st.relKeys)
            · rw [if_pos hc2]
              exact StepOK_trans (StepOK_append_rel st.objs newRefs "created-by" rep_id i
                created created collector_id 60 st.counter) (ih _ _)
            · rw [if_neg hc2]
              exact StepOK_trans (StepOK_trans
                (StepOK_append_rel st.objs newRefs "created-by" rep_id i
                  created created collector_id 60 st.counter)
                (StepOK_append_rel
                  (st.objs ++ [(build_relationship "created-by" rep_id i created created
                    collector_id 60 st.counter).1])
                  (newRefs ++ [pyStrip (build_relationship "created-by" rep_id i created
                    created collector_id 60 st.counter).1.id])
                  "related-to" i publisher_id created created collector_id 40
                  (build_relationship "created-by" rep_id i created created
                    collector_id 60 st.counter).2)) (ih _ _)
      | none =>
        simp only [hl]
        by_cases hc1 : ((rep_id, "created-by",
            pyStrip (make_author_identity a created created collector_id st.counter).1.id)
              ∈ st.relKeys)
        · rw [if_pos hc1]
          by_cases hp0 : publisher_id = ""
          · rw [if_pos hp0]
            exact StepOK_trans (StepOK_append_reffree st.objs newRefs
              (make_author_identity a created created collector_id st.counter).1
              (make_author_identity_refs _ _ _ _ _)) (ih _ _)
          · rw [if_neg hp0]
            by_cases hc2 : ((pyStrip (make_author_identity a created created collector_id
                st.counter).1.id, "related-to", publisher_id) ∈ st.relKeys)
            · rw [if_pos hc2]
              exact StepOK_trans (StepOK_append_reffree st.objs newRefs
                (make_author_identity a created created collector_id st.counter).1
                (make_author_identity_refs _ _ _ _ _)) (ih _ _)
            · rw [if_neg hc2]
              exact StepOK_trans (StepOK_trans
                (StepOK_append_reffree st.objs newRefs
                  (make_author_identity a created created collector_id st.counter).1
                  (make_author_identity_refs _ _ _ _ _))
                (StepOK_append_rel
                  (st.objs ++ [(make_author_identity a created created collector_id
                    st.counter).1])
                  newRefs "related-to"
                  (pyStrip (make_author_identity a created created collector_id
                    st.counter).1.id)
                  publisher_id created created collector_id 40
                  (make_author_identity a created created collector_id st.counter).2))
                (ih _ _)
        · rw [if_neg hc1]
          by_cases hp0 : publisher_id = ""
          · rw [if_pos hp0]
            exact StepOK_trans (StepOK_trans
              (StepOK_append_reffree st.objs newRefs
                (make_author_identity a created created collector_id st.counter).1
                (make_author_identity_refs _ _ _ _ _))
              (StepOK_append_rel
                (st.objs ++ [(make_author_identity a created created collector_id
                  st.counter).1])
                newRefs "created-by" rep_id
                (pyStrip (make_author_identity a created created collector_id
                  st.counter).1.id)
                created created collector_id 60
                (make_author_identity a created created collector_id st.counter).2))
              (ih _ _)
          · rw [if_neg hp0]
            by_cases hc2 : ((pyStrip (make_author_identity a created created collector_id
                st.counter).1.id, "related-to", publisher_id) ∈
                (rep_id, "created-by",
                  pyStrip (make_author_identity a created created collector_id
                    st.counter).1.id) :: st.relKeys)
            · rw [if_pos hc2]
              exact StepOK_trans (StepOK_trans
                (StepOK_append_reffree st.objs newRefs
                  (make_author_identity a created created collector_id st.counter).1
                  (make_author_identity_refs _ _ _ _ _))
                (StepOK_append_rel
                  (st.objs ++ [(make_author_identity a created created collector_id
                    st.counter).1])
                  newRefs "created-by" rep_id
                  (pyStrip (make_author_identity a created created collector_id
                    st.counter).1.id)
                  created created collector_id 60
                  (make_author_identity a created created collector_id st.counter).2))
                (ih _ _)
            · rw [if_neg hc2]
              exact StepOK_trans (StepOK_trans (StepOK_trans
                (StepOK_append_reffree st.objs newRefs
                  (make_author_identity a created created collector_id st.counter).1
                  (make_author_identity_refs _ _ _ _ _))
                (StepOK_append_rel
                  (st.objs ++ [(make_author_identity a created created collector_id
                    st.counter).1])
                  newRefs "created-by" rep_id
                  (pyStrip (make_author_identity a created created collector_id
                    st.counter).1.id)
                  created created collector_id 60
                  (make_author_identity a created created collector_id st.counter).2))
                (StepOK_append_rel
                  (st.objs ++ [(make_author_identity a created created collector_id
                    st.counter).1] ++
                    [(build_relationship "created-by" rep_id
                      (pyStrip (make_author_identity a created created collector_id
                        st.counter).1.id)
                      created created collector_id 60
                      (make_author_identity a created created collector_id
                        st.counter).2).1])
                  (newRefs ++
                    [pyStrip (build_relationship "created-by" rep_id
                      (pyStrip (make_author_identity a created created collector_id
                        st.counter).1.id)
                      created created collector_id 60
                      (make_author_identity a created created collector_id
                        st.counter).2).1.id])
                  "related-to"
                  (pyStrip (make_author_identity a created created collector_id
                    st.counter).1.id)
                  publisher_id created created collector_id 40
                  (build_relationship "created-by" rep_id
                    (pyStrip (make_author_identity a created created collector_id
                      st.counter).1.id)
                    created created collector_id 60
                    (make_author_identity a created created collector_id
                      st.counter).2).2))
                (ih _ _)

theorem refsValid_set_extend {l : List StixObj} {i : Nat} {o : StixObj}
    {extra : List String}
    (hid : o.id = (l.getD i {}).id) (hty : o.type = (l.getD i {}).type)
    (hrefs : o.object_refs.getD [] = (l.getD i {}).object_refs.getD [] ++ extra)
    (hex : ∀ r ∈ extra, ∃ p ∈ l, p.id = r)
    (h : refsValid l) : refsValid (l.set i o) := by
  intro p hp hrep rid hrid
  obtain ⟨j, hj, hpj⟩ := List.mem_iff_getElem.mp hp
  have hjl : j < l.length := by simpa using hj
  by_cases hij : i = j
  · subst hij
    rw [List.getElem_set_self (by simpa using hjl)] at hpj
    subst hpj
    have hmem : l.getD i {} ∈ l := by
      rw [List.getD_eq_getElem?_getD, List.getElem?_eq_getElem hjl]
      exact List.getElem_mem hjl
    rw [hrefs] at hrid
    rcases List.mem_append.mp hrid with hr | hr
    · exact idsOf_set_mem hid
        (h (l.getD i {}) hmem (by rw [← hty]; exact hrep) rid hr)
    · exact idsOf_set_mem hid (hex rid hr)
  · rw [List.getElem_set_ne hij] at hpj
    have hpl : p ∈ l := by
      subst hpj
      exact List.getElem_mem hjl
    exact idsOf_set_mem hid (h p hpl hrep rid hrid)

theorem enrichReport_body_refsValid (created collector_id rep_id publisher_id : String)
    (authors : List String) (stA : EnSt) (repIdx : Nat)
    (hv : refsValid stA.objs) (hlen : repIdx < stA.objs.length) :
    refsValid
      ((enrichAuthors created collector_id rep_id publisher_id authors stA []).1.objs.set
        repIdx
        { stA.objs.getD repIdx {} with
            object_refs := some ((stA.objs.getD repIdx {}).object_refs.getD [] ++
              (enrichAuthors created collector_id rep_id publisher_id authors stA []).2) }) := by
  obtain ⟨⟨tail, hto, htn⟩, hres⟩ :=
    enrichAuthors_spec created collector_id rep_id publisher_id authors stA []
  have hv2 : refsValid
      (enrichAuthors created collector_id rep_id publisher_id authors stA []).1.objs := by
    rw [hto]
    exact refsValid_append hv htn
  have hex : ∀ r ∈ (enrichAuthors created collector_id rep_id publisher_id
        authors stA []).2,
      ∃ p ∈ (enrichAuthors created collector_id rep_id publisher_id authors stA []).1.objs,
        p.id = r := by
    intro r hr
    rcases hres r hr with hr0 | he
    · simp at hr0
    · exact he
  have hgd : (enrichAuthors created collector_id rep_id publisher_id
        authors stA []).1.objs.getD repIdx {} = stA.objs.getD repIdx {} := by
    rw [hto, List.getD_eq_getElem?_getD, List.getD_eq_getElem?_getD,
      List.getElem?_append_left hlen]
  refine refsValid_set_extend ?_ ?_ ?_ hex hv2
  · rw [hgd]
  · rw [hgd]
  · rw [hgd]
    rfl

theorem enrichReport_refsValid (files : String → Option String)
    (created collector_id : String) (noteIdxs : List Nat) (st : EnSt) (repIdx : Nat)
    (h : refsValid st.objs) :
    refsValid (enrichReport files created collector_id noteIdxs st repIdx).objs := by
  simp only [enrichReport]
  split
  · exact h
  · rename_i hrid0
    have hlen : repIdx < st.objs.length := by
      by_contra hge
      push_neg at hge
      have hdef : st.objs.getD repIdx {} = {} := by
        rw [List.getD_eq_getElem?_getD, List.getElem?_eq_none hge]
        rfl
      rw [hdef] at hrid0
      exact hrid0 rfl
    split
    · exact h
    · split
      · exact h
      · split
        · exact h
        · split
          · exact h
          · split
            · rename_i hchg
              exact enrichReport_body_refsValid created collector_id _ _ _ _ repIdx
                (refsValid_set_same rfl rfl rfl h) (by simpa using hlen)
            · exact enrichReport_body_refsValid created collector_id _ _ _ _ repIdx h hlen

theorem foldl_enrichReport_refsValid (files : String → Option String)
    (created collector_id : String) (noteIdxs : List Nat) :
    ∀ (idxs : List Nat) (st : EnSt), refsValid st.objs →
      refsValid (idxs.foldl (enrichReport files created collector_id noteIdxs) st).objs := by
  intro idxs
  induction idxs with
  | nil =>
    intro st h
    simpa using h
  | cons i rest ih =>
    intro st h
    simp only [List.foldl_cons]
    exact ih _ (enrichReport_refsValid files created collector_id noteIdxs st i h)

theorem enrichObjects_refsValid {files : String → Option String} {created : String}
    {objs0 : List StixObj} {counter : Nat} {out : EnrichOut}
    (h : enrichObjects files created objs0 counter = .ok out)
    (h0 : refsValid objs0) : refsValid out.objects := by
  simp only [enrichObjects] at h
  split at h
  · exact absurd h (by simp)
  · simp only [Except.ok.injEq] at h
    subst h
    exact foldl_enrichReport_refsValid files created _ _ _ _ h0

/-- C8 (amended).  After the build pass every id in every Report's
`object_refs` resolves to an object present in the bundle (no dangling
references), and this is preserved by any run of the enrichment pass.
The deduplication half of the original claim is false: `object_refs` can
carry the same id twice (see the counterexample). -/
theorem C8_reference_integrity {items : List Item} {cleaned : List CleanedItem}
    {included : List IncRow} {created : String} {objs : List StixObj}
    {man : Manifest} {n : Nat}
    (h : buildBundle items cleaned included created = .ok (objs, man, n)) :
    refsValid objs ∧
    ∀ (files : String → Option String) (created2 : String) (counter : Nat)
      (out : EnrichOut),
      enrichObjects files created2 objs counter = .ok out → refsValid out.objects := by
  simp only [buildBundle] at h
  split at h
  · exact absurd h (by simp)
  · rename_i stF hf
    simp only [Except.ok.injEq, Prod.mk.injEq] at h
    obtain ⟨h1, -, -⟩ := h
    subst h1
    have hInv0 : InvB
        { objects := [{ type := "identity", id := mkId "identity" 0
                        created := created, modified := created
                        name := some CREATOR_NAME
                        identity_class := some CREATOR_CLASS }]
          counter := 1 } := by
      refine ⟨?_, ?_, ?_, ?_, ?_⟩
      · intro o ho hrep rid hrid
        simp only [List.mem_singleton] at ho
        subst ho
        have hne : ¬ ("identity" : String) = "report" := by decide
        exact absurd hrep hne
      · intro v hv
        simp [mapRange] at hv
      · intro v hv
        simp [mapRange] at hv
      · intro v hv
        simp [mapRange] at hv
      · intro v hv
        simp [mapRange] at hv
    have hInvF := buildFold_InvB hf hInv0
    refine ⟨hInvF.1, ?_⟩
    intro files created2 counter out he
    exact enrichObjects_refsValid he hInvF.1

/-- C8 witness: a concrete two-article run; its bundle has no dangling
report references and neither does any enrichment of it. -/
theorem C8_witness :
    refsValid (bundleObjectsOf (buildBundle c7Items [] [] "T")) ∧
    ∀ (files : String → Option String) (created2 : String) (counter : Nat)
      (out : EnrichOut),
      enrichObjects files created2 (bundleObjectsOf (buildBundle c7Items [] [] "T"))
        counter = .ok out → refsValid out.objects :=
  @C8_reference_integrity c7Items [] [] "T"
    (bundleObjectsOf (buildBundle c7Items [] [] "T"))
    (manifestOf (buildBundle c7Items [] [] "T"))
    (counterOf (buildBundle c7Items [] [] "T")) (by rfl)

/-- C8 counterexample to the deduplication half: an article carrying the
same candidate indicator twice produces a Report whose `object_refs`
lists the shared indicator id twice — the indicator loop appends the
deduplicated id to the per-article ref list once per record. -/
theorem C8_counterexample :
    ¬ ∀ o ∈ bundleObjectsOf (buildBundle [c8Item] [] [] "T"),
        o.type = "report" → (o.object_refs.getD []).Nodup := by
  decide

/-! ## Claim C2: author identity scoping -/

/-- C2 (amended).  In the Report Assembler, author resolution is keyed by
the pair (effective publisher name, normalized author name):
`get_or_create_author_id` returns exactly the registry binding of that
pair, or a fresh id when the pair is unbound.  In the Enrichment Pass the
key is the normalized author name ALONE: a hit in the rebuilt author map
resolves the same identity and creates none, whatever publisher the
report belongs to (the publisher id only parameterizes the edges). -/
theorem C2_author_scoping :
    (∀ (c m cb pn an : String) (amap : List ((String × String) × String)) (n : Nat)
      (objs : List StixObj),
      (get_or_create_author_id c m cb pn an amap n objs).1 =
        (match alistLookup amap
            ((if pyStrip pn = "" then "Unknown Publisher" else pyStrip pn),
              normalize_author_key an) with
          | some i => i
          | none => mkId "identity" n)) ∧
    (∀ (created collector_id rep_id publisher_id a : String) (st : EnSt)
      (newRefs : List String) (i : String),
      alistLookup st.amap (normalize_author_key a) = some i →
      (enrichAuthors created collector_id rep_id publisher_id [a] st newRefs).1.amap
        = st.amap ∧
      (enrichAuthors created collector_id rep_id publisher_id [a] st
        newRefs).1.added_identities = st.added_identities) := by
  constructor
  · intro c m cb pn an amap n objs
    simp only [get_or_create_author_id]
    cases hl : alistLookup amap
        ((if pyStrip pn = "" then "Unknown Publisher" else pyStrip pn),
          normalize_author_key an) with
    | some i => simp [hl]
    | none => simp [hl, make_author_identity_id]
  · intro created collector_id rep_id publisher_id a st newRefs i hl
    simp only [enrichAuthors]
    split
    · exact ⟨rfl, rfl⟩
    · simp only [hl]
      repeat' split
      all_goals exact ⟨rfl, rfl⟩

/-- C2 witness: a concrete hit in the enrichment author map keyed only by
the normalized name leaves the map and the identity counter unchanged,
under a publisher the map never saw. -/
theorem C2_witness :
    (enrichAuthors "T" "c" "r1" "pB" ["John Smith"]
        { amap := [(normalize_author_key "John Smith", "u#identity")] } []).1.amap =
      ({ amap := [(normalize_author_key "John Smith", "u#identity")] } : EnSt).amap ∧
    (enrichAuthors "T" "c" "r1" "pB" ["John Smith"]
        { amap := [(normalize_author_key "John Smith", "u#identity")] } []).1.added_identities =
      ({ amap := [(normalize_author_key "John Smith", "u#identity")] } : EnSt).added_identities :=
  C2_author_scoping.2 "T" "c" "r1" "pB" "John Smith"
    { amap := [(normalize_author_key "John Smith", "u#identity")] } [] "u#identity"
    (by decide)

/-- C2 counterexample to the cross-pass claim: the same byline under two
different publishers is enriched into ONE shared Author identity — the
run adds a single individual identity and wires both reports' edges to
it, because `existing_author_ids` is keyed by normalized name only. -/
theorem C2_counterexample :
    (enOutOf (enrichObjects c2Files "T" c2Objs 50)).added_identities = 1 ∧
    ((enOutOf (enrichObjects c2Files "T" c2Objs 50)).objects.filter
      (fun o => o.type = "identity" && safeStrO o.identity_class = "individual")).length
        = 1 ∧
    ((enOutOf (enrichObjects c2Files "T" c2Objs 50)).objects.filter
      (fun o => o.type = "relationship" &&
        safeStrO o.relationship_type = "related-to")).map (fun o => o.target_ref) =
      [some "pA", some "pB"] := by
  refine ⟨rfl, rfl, rfl⟩

/-! ## Claim C1: idempotence of the enrichment pass -/

theorem enrichAuthors_stable (created collector_id rep_id publisher_id : String)
    (authors : List String) :
    ∀ (st : EnSt) (newRefs : List String),
      (∀ a ∈ authors,
        authorStable rep_id publisher_id st.amap st.relKeys a = true) →
      enrichAuthors created collector_id rep_id publisher_id authors st newRefs
        = (st, newRefs) := by
  induction authors with
  | nil =>
    intro st newRefs h
    simp only [enrichAuthors]
  | cons a rest ih =>
    intro st newRefs h
    have ha := h a (List.mem_cons_self a rest)
    have hrest : ∀ b ∈ rest,
        authorStable rep_id publisher_id st.amap st.relKeys b = true :=
      fun b hb => h b (List.mem_cons_of_mem a hb)
    simp only [enrichAuthors]
    split
    · exact ih st newRefs hrest
    · rename_i hkey
      simp only [authorStable] at ha
      rw [Bool.or_eq_true] at ha
      rcases ha with ha | ha
      · exact absurd (by simpa using ha) hkey
      · cases hl : alistLookup st.amap (normalize_author_key a) with
        | none =>
          rw [hl] at ha
          simp at ha
        | some i =>
          rw [hl] at ha
          simp only [Bool.and_eq_true, decide_eq_true_eq, Bool.or_eq_true] at ha
          obtain ⟨hc1, hc2⟩ := ha
          simp only [hl]
          rw [if_pos hc1]
          rcases hc2 with hc2 | hc2
          · rw [if_pos (by simpa using hc2)]
            exact ih st newRefs hrest
          · by_cases hp0 : publisher_id = ""
            · rw [if_pos hp0]
              exact ih st newRefs hrest
            · rw [if_neg hp0, if_pos (by simpa using hc2)]
              exact ih st newRefs hrest

theorem set_getD_self {l : List StixObj} {i : Nat} :
    l.set i (l.getD i {}) = l := by
  by_cases h : i < l.length
  · apply List.ext_getElem
    · simp
    · intro j h1 h2
      rw [List.getElem_set]
      split
      · rename_i hij
        subst hij
        rw [List.getD_eq_getElem?_getD, List.getElem?_eq_getElem h]
        rfl
      · rfl
  · rw [List.set_eq_of_length_le (by omega)]

theorem enrichReport_stable (files : String → Option String)
    (created collector_id : String) (noteIdxs : List Nat) (st : EnSt) (repIdx : Nat)
    (h : reportStable files st.objs noteIdxs st.amap st.relKeys repIdx = true) :
    (enrichReport files created collector_id noteIdxs st repIdx).objs = st.objs ∧
    (enrichReport files created collector_id noteIdxs st repIdx).amap = st.amap ∧
    (enrichReport files created collector_id noteIdxs st repIdx).relKeys = st.relKeys ∧
    (enrichReport files created collector_id noteIdxs st repIdx).added_identities
      = st.added_identities ∧
    (enrichReport files created collector_id noteIdxs st repIdx).added_relationships
      = st.added_relationships ∧
    (enrichReport files created collector_id noteIdxs st repIdx).updated_notes
      = st.updated_notes := by
  simp only [enrichReport]
  split
  · exact ⟨rfl, rfl, rfl, rfl, rfl, rfl⟩
  · rename_i hrid0
    split
    · exact ⟨rfl, rfl, rfl, rfl, rfl, rfl⟩
    · rename_i ni hni
      split
      · exact ⟨rfl, rfl, rfl, rfl, rfl, rfl⟩
      · rename_i hraw
        split
        · exact ⟨rfl, rfl, rfl, rfl, rfl, rfl⟩
        · rename_i raw_text hfile
          split
          · exact ⟨rfl, rfl, rfl, rfl, rfl, rfl⟩
          · rename_i hemp
            simp only [reportStable] at h
            rw [if_neg hrid0] at h
            simp only [hni] at h
            rw [if_neg hraw] at h
            simp only [hfile] at h
            rw [if_neg hemp] at h
            simp only [Bool.and_eq_true, decide_eq_true_eq] at h
            obtain ⟨⟨hupd, hsome⟩, hall0⟩ := h
            obtain ⟨l, hl⟩ := Option.isSome_iff_exists.mp hsome
            have hall : ∀ a ∈ extract_author_from_raw_text raw_text,
                authorStable (pyStrip (st.objs.getD repIdx {}).id)
                  (safeStrO (st.objs.getD repIdx {}).created_by_ref)
                  st.amap st.relKeys a = true :=
              List.all_eq_true.mp hall0
            rw [hupd]
            rw [if_neg (by simp)]
            rw [enrichAuthors_stable created collector_id _ _ _ st [] hall]
            have h3eq : ({ st.objs.getD repIdx {} with
                object_refs := some ((st.objs.getD repIdx {}).object_refs.getD []
                  ++ ([] : List String)) } : StixObj) = st.objs.getD repIdx {} := by
              rw [hl]
              simp only [Option.getD_some, List.append_nil]
              rw [← hl]
            refine ⟨?_, rfl, rfl, rfl, rfl, rfl⟩
            show (st.objs.set repIdx _) = st.objs
            rw [h3eq]
            exact set_getD_self

theorem foldl_enrichReport_stable (files : String → Option String)
    (created collector_id : String) (noteIdxs : List Nat) :
    ∀ (idxs : List Nat) (st : EnSt),
      (∀ i ∈ idxs, reportStable files st.objs noteIdxs st.amap st.relKeys i = true) →
      (idxs.foldl (enrichReport files created collector_id noteIdxs) st).objs = st.objs ∧
      (idxs.foldl (enrichReport files created collector_id noteIdxs) st).amap = st.amap ∧
      (idxs.foldl (enrichReport files created collector_id noteIdxs) st).relKeys
        = st.relKeys ∧
      (idxs.foldl (enrichReport files created collector_id noteIdxs) st).added_identities
        = st.added_identities ∧
      (idxs.foldl (enrichReport files created collector_id
        noteIdxs) st).added_relationships = st.added_relationships ∧
      (idxs.foldl (enrichReport files created collector_id noteIdxs) st).updated_notes
        = st.updated_notes := by
  intro idxs
  induction idxs with
  | nil =>
    intro st h
    exact ⟨rfl, rfl, rfl, rfl, rfl, rfl⟩
  | cons i rest ih =>
    intro st h
    simp only [List.foldl_cons]
    obtain ⟨e1, e2, e3, e4, e5, e6⟩ :=
      enrichReport_stable files created collector_id noteIdxs st i
        (h i (List.mem_cons_self i rest))
    obtain ⟨f1, f2, f3, f4, f5, f6⟩ := ih (enrichReport files created collector_id
        noteIdxs st i) (by
      intro j hj
      rw [e1, e2, e3]
      exact h j (List.mem_cons_of_mem i hj))
    exact ⟨f1.trans e1, f2.trans e2, f3.trans e3, f4.trans e4, f5.trans e5, f6.trans e6⟩

/-- C1 (amended).  The enrichment pass is a no-op — no objects change, no
Author identity, no Relationship and no Note update is counted — on any
bundle that is already author-stable: every report is either skipped by
one of the early exits or its note already carries the extracted author
line, its `object_refs` is present, and every extracted author resolves
in the rebuilt author map with both edges already in the rebuilt key set.
A first run leaves the bundle in exactly this state when the extracted
author names fit the identity's 256-character name field and the note
stays under its 20000-character cap; the counterexample shows a
260-character byline for which the second run is NOT a no-op. -/
theorem C1_enrichment_idempotent {files : String → Option String} {created : String}
    {objs0 : List StixObj} {counter : Nat} {out : EnrichOut}
    (h : enrichObjects files created objs0 counter = .ok out)
    (hst : ∀ i ∈ (List.range objs0.length).filter
        (fun i => (objs0.getD i {}).type = "report"),
      reportStable files objs0
        ((List.range objs0.length).filter (fun i => (objs0.getD i {}).type = "note"))
        (rebuildAuthorMap objs0) (rebuildRelKeys objs0) i = true) :
    out.objects = objs0 ∧ out.added_identities = 0 ∧
    out.added_relationships = 0 ∧ out.updated_notes = 0 := by
  simp only [enrichObjects] at h
  split at h
  · exact absurd h (by simp)
  · rename_i collector_id hcid
    simp only [Except.ok.injEq] at h
    subst h
    obtain ⟨f1, f2, f3, f4, f5, f6⟩ := foldl_enrichReport_stable files created
      collector_id
      ((List.range objs0.length).filter (fun i => (objs0.getD i {}).type = "note"))
      ((List.range objs0.length).filter (fun i => (objs0.getD i {}).type = "report"))
      { objs := objs0, amap := rebuildAuthorMap objs0
        relKeys := rebuildRelKeys objs0, counter := counter }
      (by
        intro i hi
        exact hst i hi)
    exact ⟨f1, f4, f5, f6⟩

set_option maxRecDepth 8000

/-- C1 witness: the short-byline bundle is author-stable after one
enrichment run, and the theorem applied to that state shows the second
run changes nothing and counts zero additions. -/
theorem C1_witness :
    (enOutOf (enrichObjects c2Files "T2"
      (enOutOf (enrichObjects c2Files "T" c2Objs 50)).objects 90)).objects =
      (enOutOf (enrichObjects c2Files "T" c2Objs 50)).objects ∧
    (enOutOf (enrichObjects c2Files "T2"
      (enOutOf (enrichObjects c2Files "T" c2Objs 50)).objects 90)).added_identities
        = 0 ∧
    (enOutOf (enrichObjects c2Files "T2"
      (enOutOf (enrichObjects c2Files "T" c2Objs 50)).objects 90)).added_relationships
        = 0 ∧
    (enOutOf (enrichObjects c2Files "T2"
      (enOutOf (enrichObjects c2Files "T" c2Objs 50)).objects 90)).updated_notes = 0 :=
  @C1_enrichment_idempotent c2Files "T2"
    (enOutOf (enrichObjects c2Files "T" c2Objs 50)).objects 90
    (enOutOf (enrichObjects c2Files "T2"
      (enOutOf (enrichObjects c2Files "T" c2Objs 50)).objects 90))
    (by rfl) (by decide)

/-- C1 counterexample: a 260-character byline.  The first run stores the
author identity's name truncated to 256 characters, so the second run's
rebuilt author map misses the extracted 260-character name and creates a
fresh identity and fresh edges again — the second run's counters are not
zero. -/
theorem C1_counterexample :
    (enOutOf (enrichObjects cxFiles "T2"
      (enOutOf (enrichObjects cxFiles "T" cxObjs 10)).objects 90)).added_identities
        = 1 ∧
    (enOutOf (enrichObjects cxFiles "T2"
      (enOutOf (enrichObjects cxFiles "T" cxObjs 10)).objects 90)).added_relationships
        = 2 :=
  ⟨rfl, rfl⟩
